import Mathlib

set_option maxHeartbeats 1000000

/-!
Verification of the RPC correlation and multiplexing layer in
`src/vs/workbench/services/extensions/node/ipcRemoteCom.ts`.

The development embeds, as executable Lean definitions:
  * a JSON value model together with a serializer and parser, standing for
    the external `marshalling.stringify` / `marshalling.parse` collaborator
    (plain JSON, restricted to the wire grammar the codec produces);
  * the wire codec `MessageFactory` (string splicing, exactly as in the source);
  * the message dispatch `RPCManager._receiveOneMessage`, modelled as a
    function from a manager state and a message to an ordered trace of
    observable effects plus an optional thrown error;
  * `RPCManager.callOnRemote`, the `RPCMultiplexer` send/receive buffers,
    and the `LazyPromise` cancellation state machine (the latter modelled
    from the spec, its source not being part of the repository snapshot).
-/

namespace IpcRemoteCom

/-- JSON-like values exchanged on the wire (arguments, results, error
payloads and whole messages). Numbers are restricted to integers, which
covers every value the wire codec itself produces. -/
inductive JVal : Type where
  | jnull : JVal
  | jbool : Bool → JVal
  | jnum : Int → JVal
  | jstr : String → JVal
  | jarr : List JVal → JVal
  | jobj : List (String × JVal) → JVal

/-- Fuel-indexed accumulator loop producing the decimal digits of `n` in
front of `acc`; the fuel `n + 1` supplied by `natDigits` always suffices. -/
def natDigitsCore : Nat → Nat → List Char → List Char
  | 0, _, acc => acc
  | fuel + 1, n, acc =>
    if n < 10 then Nat.digitChar n :: acc
    else natDigitsCore fuel (n / 10) (Nat.digitChar (n % 10) :: acc)

/-- Decimal digits of a natural number, most significant first; models the
rendering used by JavaScript `String(number)` and `JSON.stringify` for
non-negative integers. -/
def natDigits (n : Nat) : List Char :=
  natDigitsCore (n + 1) n []

/-- Decimal rendering of a natural number (JavaScript `String(n)`). -/
def natToString (n : Nat) : String :=
  String.mk (natDigits n)

/-- Decimal rendering of an integer. -/
def intChars (i : Int) : List Char :=
  if i < 0 then '-' :: natDigits i.natAbs else natDigits i.toNat

/-- JSON string escaping of one character, as performed by
`JSON.stringify`: quote, backslash and control characters are escaped,
everything else is emitted verbatim. -/
def escapeChar (c : Char) : List Char :=
  if c = '"' then ['\\', '"']
  else if c = '\\' then ['\\', '\\']
  else if c = '\x08' then ['\\', 'b']
  else if c = '\x09' then ['\\', 't']
  else if c = '\x0a' then ['\\', 'n']
  else if c = '\x0c' then ['\\', 'f']
  else if c = '\x0d' then ['\\', 'r']
  else if c.toNat < 32 then
    ['\\', 'u', '0', '0', Nat.digitChar (c.toNat / 16), Nat.digitChar (c.toNat % 16)]
  else [c]

/-- JSON string escaping of a character list. -/
def escapeList : List Char → List Char
  | [] => []
  | c :: cs => escapeChar c ++ escapeList cs

mutual

/-- Modelled from the spec: the value-serializer collaborator
(`marshalling.stringify`, i.e. `JSON.stringify`; the marshalling module is
not part of the repository snapshot). Renders a `JVal` to JSON text,
character list form. -/
def stringifyChars : JVal → List Char
  | .jnull => 'n' :: 'u' :: 'l' :: 'l' :: []
  | .jbool true => 't' :: 'r' :: 'u' :: 'e' :: []
  | .jbool false => 'f' :: 'a' :: 'l' :: 's' :: 'e' :: []
  | .jnum i => intChars i
  | .jstr s => '"' :: (escapeList s.data ++ ['"'])
  | .jarr xs => '[' :: (stringifyItems xs ++ [']'])
  | .jobj fs => '\x7b' :: (stringifyFields fs ++ ['\x7d'])

/-- Comma-separated serialization of array elements. -/
def stringifyItems : List JVal → List Char
  | [] => []
  | [x] => stringifyChars x
  | x :: y :: xs => stringifyChars x ++ ',' :: stringifyItems (y :: xs)

/-- Comma-separated serialization of object fields. -/
def stringifyFields : List (String × JVal) → List Char
  | [] => []
  | [(k, v)] => '"' :: (escapeList k.data ++ '"' :: ':' :: stringifyChars v)
  | (k, v) :: g :: fs =>
      ('"' :: (escapeList k.data ++ '"' :: ':' :: stringifyChars v)) ++ ',' :: stringifyFields (g :: fs)

end

/-- JSON serialization of a value to a string. -/
def jsonStringify (v : JVal) : String :=
  String.mk (stringifyChars v)

/-- Value of a hexadecimal digit character, if any. -/
def hexVal (c : Char) : Option Nat :=
  if '0' ≤ c ∧ c ≤ '9' then some (c.toNat - 48)
  else if 'a' ≤ c ∧ c ≤ 'f' then some (c.toNat - 87)
  else if 'A' ≤ c ∧ c ≤ 'F' then some (c.toNat - 55)
  else none

/-- Parses the body of a JSON string (after the opening quote) up to and
including the closing quote, decoding escapes; returns the decoded
characters and the remaining input. Raw control characters are rejected,
as `JSON.parse` rejects them. -/
def parseStringBody : List Char → Option (List Char × List Char)
  | [] => none
  | c :: cs =>
    if c = '"' then some ([], cs)
    else if c = '\\' then
      match cs with
      | [] => none
      | e :: cs2 =>
        if e = '"' then (parseStringBody cs2).map (fun p => ('"' :: p.1, p.2))
        else if e = '\\' then (parseStringBody cs2).map (fun p => ('\\' :: p.1, p.2))
        else if e = '/' then (parseStringBody cs2).map (fun p => ('/' :: p.1, p.2))
        else if e = 'b' then (parseStringBody cs2).map (fun p => ('\x08' :: p.1, p.2))
        else if e = 'f' then (parseStringBody cs2).map (fun p => ('\x0c' :: p.1, p.2))
        else if e = 'n' then (parseStringBody cs2).map (fun p => ('\x0a' :: p.1, p.2))
        else if e = 'r' then (parseStringBody cs2).map (fun p => ('\x0d' :: p.1, p.2))
        else if e = 't' then (parseStringBody cs2).map (fun p => ('\x09' :: p.1, p.2))
        else if e = 'u' then
          match cs2 with
          | h1 :: h2 :: h3 :: h4 :: cs3 =>
            match hexVal h1, hexVal h2, hexVal h3, hexVal h4 with
            | some a, some b, some c2, some d =>
                (parseStringBody cs3).map
                  (fun p => (Char.ofNat (4096 * a + 256 * b + 16 * c2 + d) :: p.1, p.2))
            | _, _, _, _ => none
          | _ => none
        else none
    else if c.toNat < 32 then none
    else (parseStringBody cs).map (fun p => (c :: p.1, p.2))

/-- Longest prefix of decimal digits and the remaining input. -/
def spanDigits : List Char → List Char × List Char
  | [] => ([], [])
  | c :: cs =>
    if c.isDigit then
      let p := spanDigits cs
      (c :: p.1, p.2)
    else ([], c :: cs)

/-- Numeric value of a list of decimal digit characters. -/
def digitsToNat (ds : List Char) : Nat :=
  ds.foldl (fun a c => a * 10 + (c.toNat - 48)) 0

mutual

/-- Modelled from the spec: the value-deserializer collaborator
(`marshalling.parse`, i.e. `JSON.parse`; the marshalling module is not
part of the repository snapshot), restricted to the wire grammar the
codec produces: no insignificant whitespace, integer numbers. Fuel-indexed
recursive descent; `jsonParse` below supplies sufficient fuel. -/
def parseVal : Nat → List Char → Option (JVal × List Char)
  | 0, _ => none
  | _ + 1, [] => none
  | fuel + 1, c :: cs =>
    if c = 'n' then
      match cs with
      | 'u' :: 'l' :: 'l' :: rest => some (.jnull, rest)
      | _ => none
    else if c = 't' then
      match cs with
      | 'r' :: 'u' :: 'e' :: rest => some (.jbool true, rest)
      | _ => none
    else if c = 'f' then
      match cs with
      | 'a' :: 'l' :: 's' :: 'e' :: rest => some (.jbool false, rest)
      | _ => none
    else if c = '"' then
      (parseStringBody cs).map (fun p => (JVal.jstr (String.mk p.1), p.2))
    else if c = '-' then
      match spanDigits cs with
      | ([], _) => none
      | (ds, rest) => some (.jnum (-(digitsToNat ds : Int)), rest)
    else if c = '[' then (parseItemsStart fuel cs).map (fun p => (JVal.jarr p.1, p.2))
    else if c = '\x7b' then (parseFieldsStart fuel cs).map (fun p => (JVal.jobj p.1, p.2))
    else if c.isDigit then
      match spanDigits (c :: cs) with
      | (ds, rest) => some (.jnum ((digitsToNat ds : Int)), rest)
    else none

/-- Array contents after the opening bracket. -/
def parseItemsStart : Nat → List Char → Option (List JVal × List Char)
  | 0, _ => none
  | _ + 1, [] => none
  | fuel + 1, c :: cs =>
    if c = ']' then some ([], cs) else parseItemsLoop fuel (c :: cs)

/-- One or more comma-separated array elements followed by the closing bracket. -/
def parseItemsLoop : Nat → List Char → Option (List JVal × List Char)
  | 0, _ => none
  | fuel + 1, cs =>
    match parseVal fuel cs with
    | none => none
    | some (v, rest) =>
      match rest with
      | ',' :: rest2 => (parseItemsLoop fuel rest2).map (fun p => (v :: p.1, p.2))
      | ']' :: rest2 => some ([v], rest2)
      | _ => none

/-- Object contents after the opening brace. -/
def parseFieldsStart : Nat → List Char → Option (List (String × JVal) × List Char)
  | 0, _ => none
  | _ + 1, [] => none
  | fuel + 1, c :: cs =>
    if c = '\x7d' then some ([], cs) else parseFieldsLoop fuel (c :: cs)

/-- One or more comma-separated object fields followed by the closing brace. -/
def parseFieldsLoop : Nat → List Char → Option (List (String × JVal) × List Char)
  | 0, _ => none
  | _ + 1, [] => none
  | fuel + 1, c :: cs =>
    if c = '"' then
      match parseStringBody cs with
      | none => none
      | some (kcs, rest1) =>
        match rest1 with
        | ':' :: rest2 =>
          match parseVal fuel rest2 with
          | none => none
          | some (v, rest3) =>
            match rest3 with
            | ',' :: rest4 =>
                (parseFieldsLoop fuel rest4).map (fun p => ((String.mk kcs, v) :: p.1, p.2))
            | '\x7d' :: rest4 => some ([(String.mk kcs, v)], rest4)
            | _ => none
        | _ => none
    else none

end

/-- Top-level JSON parse of a whole text; fails unless the text is consumed
entirely. The fuel `2 * length + 2` is sufficient for every serialized
value (proved below). -/
def jsonParse (s : String) : Option JVal :=
  match parseVal (2 * s.length + 2) s.data with
  | some (v, []) => some v
  | _ => none

/-- Field access `msg.key` on a parsed value: on an object the value of the
last binding for that key (`JSON.parse` keeps the last duplicate), `none`
(JavaScript `undefined`) otherwise. -/
def getField (v : JVal) (k : String) : Option JVal :=
  match v with
  | .jobj fs => ((fs.filter (fun p => p.1 == k)).getLast?).map (fun p => p.2)
  | _ => none

/-- JavaScript truthiness of a possibly-absent value, as used by the
`if (msg.seq)` / `if (msg.err)` / `if (msg.cancel)` tests in
`_receiveOneMessage`: `undefined`, `null`, `0`, `""` and `false` are falsy. -/
def truthy : Option JVal → Bool
  | none => false
  | some .jnull => false
  | some (.jbool b) => b
  | some (.jnum i) => !(i == 0)
  | some (.jstr s) => !(s == "")
  | some (.jarr _) => true
  | some (.jobj _) => true

/-- Decimal rendering of an integer (JavaScript `String(i)` for integral
numbers). -/
def intToString (i : Int) : String :=
  String.mk (intChars i)

mutual

/-- JavaScript string coercion of a value, as applied to an object
property key (`obj[msg.seq]`). Scalar cases are exact; the array case
joins elements with commas (the `null`-element corner of
`Array.prototype.toString` is not modelled — wire fields used as keys are
strings, so these cases are unreachable in the protocol). -/
def jsToString : JVal → String
  | .jnull => "null"
  | .jbool true => "true"
  | .jbool false => "false"
  | .jnum i => intToString i
  | .jstr s => s
  | .jarr xs => jsArrayToString xs
  | .jobj _ => "[object Object]"

/-- Comma join used by the array case of `jsToString`. -/
def jsArrayToString : List JVal → String
  | [] => ""
  | [x] => jsToString x
  | x :: y :: xs => jsToString x ++ "," ++ jsArrayToString (y :: xs)

end

/-- Property-key coercion of a possibly-absent field value (JavaScript
turns `undefined` into the key `"undefined"`). -/
def jsKeyOfOpt : Option JVal → String
  | none => "undefined"
  | some v => jsToString v

/-- Modelled from the spec: the external error-transform collaborator
(`errors.transformErrorForSerialization`, not part of the repository
snapshot): preserves the name/message/stack triple together with the
`$isError` marker flag. -/
def transformErrorForSerialization (err : JVal) : JVal :=
  .jobj [("$isError", .jbool true),
         ("name", (getField err "name").getD .jnull),
         ("message", (getField err "message").getD .jnull),
         ("stack", (getField err "stack").getD .jnull)]

/-- Wire codec `MessageFactory.cancel` (source lines 185-187). -/
def MessageFactory.cancel (req : String) : String :=
  "\x7b\"cancel\":\"" ++ req ++ "\"\x7d"

/-- Wire codec `MessageFactory.request` (source lines 189-191): splices
`req`, `rpcId` and `method` verbatim and serializes `args`. -/
def MessageFactory.request (req rpcId method : String) (args : JVal) : String :=
  "\x7b\"req\":\"" ++ req ++ "\",\"rpcId\":\"" ++ rpcId ++ "\",\"method\":\"" ++ method ++
    "\",\"args\":" ++ jsonStringify args ++ "\x7d"

/-- Wire codec `MessageFactory.replyOK` (source lines 193-198); `none`
stands for a JavaScript `undefined` result, whose `res` field is omitted. -/
def MessageFactory.replyOK (req : String) (res : Option JVal) : String :=
  match res with
  | none => "\x7b\"seq\":\"" ++ req ++ "\"\x7d"
  | some r => "\x7b\"seq\":\"" ++ req ++ "\",\"res\":" ++ jsonStringify r ++ "\x7d"

/-- Wire codec `MessageFactory.replyErr` (source lines 200-205); `none`
stands for a JavaScript `undefined` error, encoded as an explicit `null`. -/
def MessageFactory.replyErr (req : String) (err : Option JVal) : String :=
  match err with
  | none => "\x7b\"seq\":\"" ++ req ++ "\",\"err\":null\x7d"
  | some e =>
      "\x7b\"seq\":\"" ++ req ++ "\",\"err\":" ++
        jsonStringify (transformErrorForSerialization e) ++ "\x7d"

/-- Error payload delivered to a `LazyPromise` by the reply path of
`_receiveOneMessage`: either a rich reconstructed `Error` (the `$isError`
marker branch, source lines 55-60) or the raw wire payload. -/
inductive ErrPayload : Type where
  | rich (name message stack : Option JVal) : ErrPayload
  | raw (err : JVal) : ErrPayload

/-- One observable action of the dispatch path of `_receiveOneMessage`
(and of the completion continuation of an inbound invocation), in program
order. -/
inductive Effect : Type where
  | warnUnknownSeq : Effect
  | deletePending (seq : String) : Effect
  | resolveErr (seq : String) (err : ErrPayload) : Effect
  | resolveOk (seq : String) (res : Option JVal) : Effect
  | cancelInvoked (req : String) : Effect
  | logError (err : JVal) : Effect
  | registerInvocation (req : String) (rpcId method args : Option JVal) : Effect
  | sendWire (text : String) : Effect

/-- Observable state of one `RPCManager` instance: the id counter, the keys
of the two id-keyed maps, and whether a handler is registered. The
`LazyPromise` values of `_pendingRPCReplies` are identified by their keys;
their own state machine is modelled separately. -/
structure RPCManagerState : Type where
  lastMessageId : Nat
  pendingRPCReplies : List String
  invokedHandlers : List String
  hasBigHandler : Bool

/-- State of a fresh `RPCManager` (constructor, source lines 34-40). -/
def initialRPCManagerState : RPCManagerState :=
  { lastMessageId := 0, pendingRPCReplies := [], invokedHandlers := [], hasBigHandler := false }

/-- Dispatch of one parsed inbound message, `RPCManager._receiveOneMessage`
(source lines 42-98) after `marshalling.parse`: returns the ordered trace
of observable effects and, when the dispatch throws, the error message.
The branch structure and branch order mirror the source: truthy `seq` ⇒
reply (unknown id warns and drops; `msg.err` truthy ⇒ error resolution,
rich when marked; otherwise ok resolution), truthy `cancel` ⇒ cancel an
in-flight invocation if present, truthy `err` ⇒ bare error log, otherwise
a request, which is fatal without a handler and otherwise registers the
invocation. -/
def RPCManager.receiveParsed (st : RPCManagerState) (msg : JVal) : List Effect × Option String :=
  if truthy (getField msg "seq") then
    let seqKey := jsKeyOfOpt (getField msg "seq")
    if !(st.pendingRPCReplies.contains seqKey) then
      ([.warnUnknownSeq], none)
    else
      if truthy (getField msg "err") then
        let err := (getField msg "err").getD .jnull
        if truthy (getField err "$isError") then
          ([.deletePending seqKey,
            .resolveErr seqKey (.rich (getField err "name") (getField err "message")
              (getField err "stack"))], none)
        else
          ([.deletePending seqKey, .resolveErr seqKey (.raw err)], none)
      else
        ([.deletePending seqKey, .resolveOk seqKey (getField msg "res")], none)
  else if truthy (getField msg "cancel") then
    let cancelKey := jsKeyOfOpt (getField msg "cancel")
    if st.invokedHandlers.contains cancelKey then
      ([.cancelInvoked cancelKey], none)
    else
      ([], none)
  else if truthy (getField msg "err") then
    ([.logError ((getField msg "err").getD .jnull)], none)
  else if !st.hasBigHandler then
    ([], some "got message before big handler attached!")
  else
    let req := jsKeyOfOpt (getField msg "req")
    ([.registerInvocation req (getField msg "rpcId") (getField msg "method")
        (getField msg "args")], none)

/-- Dispatch of one raw inbound text: `marshalling.parse` followed by
`RPCManager.receiveParsed`; a text `JSON.parse` rejects throws out of the
dispatch path. -/
def RPCManager.receiveOneMessage (st : RPCManagerState) (raw : String) : List Effect × Option String :=
  match jsonParse raw with
  | none => ([], some "SyntaxError: unexpected token")
  | some msg => RPCManager.receiveParsed st msg

/-- Interpretation of one effect on the manager state: a reply removes its
pending entry, dispatching a request stores the in-flight invocation under
its id (a JavaScript property assignment, so an existing binding would be
replaced, not duplicated); every other effect leaves the maps unchanged. -/
def applyEffect (st : RPCManagerState) : Effect → RPCManagerState
  | .deletePending k =>
      { st with pendingRPCReplies := st.pendingRPCReplies.filter (fun x => !(x == k)) }
  | .registerInvocation r _ _ _ =>
      if st.invokedHandlers.contains r then st
      else { st with invokedHandlers := st.invokedHandlers ++ [r] }
  | _ => st

/-- Folds a trace of effects over a manager state. -/
def applyEffects (st : RPCManagerState) (effs : List Effect) : RPCManagerState :=
  effs.foldl applyEffect st

/-- `RPCManager.callOnRemote` (source lines 108-119): allocates the next
correlation id, registers the pending reply, and sends the encoded request;
returns the new state, the issued id and the trace of sends. -/
def RPCManager.callOnRemote (st : RPCManagerState) (proxyId path : String) (args : JVal) :
    RPCManagerState × String × List Effect :=
  let newId := st.lastMessageId + 1
  let req := natToString newId
  ({ st with
      lastMessageId := newId,
      pendingRPCReplies := st.pendingRPCReplies ++ [req] },
   req,
   [.sendWire (MessageFactory.request req proxyId path args)])

/-- N sequential `callOnRemote` invocations; returns the final state and
the issued correlation ids in issuance order. -/
def RPCManager.callSequence (st : RPCManagerState) :
    List (String × String × JVal) → RPCManagerState × List String
  | [] => (st, [])
  | (p, m, a) :: rest =>
    let r := RPCManager.callOnRemote st p m a
    let next := RPCManager.callSequence r.1 rest
    (next.1, r.2.1 :: next.2)

/-- Completion continuation of an inbound invocation (source lines 91-97):
on settlement the invocation is deleted from `_invokedHandlers` and the
corresponding reply is sent (`replyOK` on success, `replyErr` on failure;
`none` models a JavaScript `undefined` result or error). -/
def RPCManager.completeInvocation (st : RPCManagerState) (req : String)
    (outcome : Except (Option JVal) (Option JVal)) : RPCManagerState × List Effect :=
  match outcome with
  | .ok r =>
      ({ st with invokedHandlers := st.invokedHandlers.filter (fun x => !(x == req)) },
       [.sendWire (MessageFactory.replyOK req r)])
  | .error e =>
      ({ st with invokedHandlers := st.invokedHandlers.filter (fun x => !(x == req)) },
       [.sendWire (MessageFactory.replyErr req e)])

/-- Modelled from the spec: the resolution state of a `DeferredResult`
(`LazyPromise`, whose source is not part of the repository snapshot):
`Pending → ResolvedOk | ResolvedError`, resolved exactly once. -/
inductive LazyPromiseResolution : Type where
  | pending : LazyPromiseResolution
  | resolvedOk (v : Option JVal) : LazyPromiseResolution
  | resolvedErr (e : ErrPayload) : LazyPromiseResolution

/-- Modelled from the spec: the observable state of one `LazyPromise`: its
resolution plus the orthogonal `CancelRequested` flag. -/
structure LazyPromiseState : Type where
  resolution : LazyPromiseResolution
  cancelRequested : Bool

/-- Modelled from the spec: `LazyPromise.cancel()` — if still pending and
cancellation was not yet requested, the cancel-action fires (returned
flag) and the flag is set; otherwise a no-op. The resolution state is
never changed by cancellation. -/
def LazyPromiseState.cancel (lp : LazyPromiseState) : LazyPromiseState × Bool :=
  match lp.resolution with
  | .pending =>
      if lp.cancelRequested then (lp, false)
      else ({ lp with cancelRequested := true }, true)
  | _ => (lp, false)

/-- Requesting cancellation of the outbound call `req`: the cancel-action
installed by `callOnRemote` (source lines 110-112) sends exactly
`MessageFactory.cancel req` when it fires; returns the promise state and
the wire texts sent. -/
def outboundCancel (req : String) (lp : LazyPromiseState) : LazyPromiseState × List String :=
  let r := lp.cancel
  (r.1, if r.2 then [MessageFactory.cancel req] else [])

/-- Outbound half of the `RPCMultiplexer` (source lines 170-181): the
accumulation buffer, the number of `process.nextTick(_sendAccumulatedBound)`
requests outstanding, and the batches handed to `protocol.send` so far. -/
structure RPCMultiplexerSendState : Type where
  messagesToSend : List String
  scheduledFlushes : Nat
  transportSends : List (List String)

/-- `RPCMultiplexer.send` (source lines 176-181): schedules a flush when
the buffer is empty, then appends the message. -/
def RPCMultiplexer.send (s : RPCMultiplexerSendState) (msg : String) : RPCMultiplexerSendState :=
  let s1 :=
    if s.messagesToSend.length = 0 then
      { s with scheduledFlushes := s.scheduledFlushes + 1 }
    else s
  { s1 with messagesToSend := s1.messagesToSend ++ [msg] }

/-- `RPCMultiplexer._sendAccumulated` (source lines 170-174), run as the
scheduled tick: swaps the buffer for an empty one and issues exactly one
`protocol.send` with the whole batch. -/
def RPCMultiplexer.sendAccumulated (s : RPCMultiplexerSendState) : RPCMultiplexerSendState :=
  { messagesToSend := [],
    scheduledFlushes := s.scheduledFlushes - 1,
    transportSends := s.transportSends ++ [s.messagesToSend] }

/-- Inbound half of the `RPCMultiplexer` (source lines 150-168): the
receive queue, the number of `process.nextTick(_receiveOneMessageBound)`
requests outstanding, and the messages delivered to `_onMessage` so far. -/
structure RPCMultiplexerRecvState : Type where
  messagesToReceive : List String
  scheduledReceives : Nat
  delivered : List String

/-- The `protocol.onMessage` subscription (source lines 150-157): schedules
a delivery when the queue is empty, then appends the whole batch. -/
def RPCMultiplexer.onProtocolMessage (s : RPCMultiplexerRecvState) (data : List String) :
    RPCMultiplexerRecvState :=
  let s1 :=
    if s.messagesToReceive.length = 0 then
      { s with scheduledReceives := s.scheduledReceives + 1 }
    else s
  { s1 with messagesToReceive := s1.messagesToReceive ++ data }

/-- `RPCMultiplexer._receiveOneMessage` (source lines 160-168), run as the
scheduled tick: pops one message, reschedules itself when more remain, and
hands the message to `_onMessage`. The empty-queue case is unreachable
while the scheduling invariant (a tick is pending only when the queue is
non-empty) holds. -/
def RPCMultiplexer.receiveOneMessage (s : RPCMultiplexerRecvState) : RPCMultiplexerRecvState :=
  match s.messagesToReceive with
  | [] => s
  | m :: rest =>
      { messagesToReceive := rest,
        scheduledReceives := s.scheduledReceives - 1 + (if rest.length > 0 then 1 else 0),
        delivered := s.delivered ++ [m] }

/-- Logical message classification (spec §4.1 `decode`): the tagged variant
produced by the field-presence dispatch rule of `_receiveOneMessage`
(source lines 45-87), with the same branch order and the same truthiness
tests. -/
inductive WireMessage : Type where
  | reply (seq : JVal) (err : Option JVal) (res : Option JVal) : WireMessage
  | cancelMsg (cancel : JVal) : WireMessage
  | bareError (err : JVal) : WireMessage
  | request (req rpcId method args : Option JVal) : WireMessage

/-- Classifies one parsed message by field presence/truthiness, mirroring
the dispatch order of `_receiveOneMessage`. -/
def classify (m : JVal) : WireMessage :=
  if truthy (getField m "seq") then
    .reply ((getField m "seq").getD .jnull) (getField m "err") (getField m "res")
  else if truthy (getField m "cancel") then
    .cancelMsg ((getField m "cancel").getD .jnull)
  else if truthy (getField m "err") then
    .bareError ((getField m "err").getD .jnull)
  else
    .request (getField m "req") (getField m "rpcId") (getField m "method") (getField m "args")

/-- `decode` of the spec's Wire Codec: parse, then classify. -/
def decode (text : String) : Option WireMessage :=
  (jsonParse text).map classify

/-- A character that JSON string syntax represents by itself: not a quote,
not a backslash, not a control character. -/
def jsonSafeChar (c : Char) : Bool :=
  !(c == '"') && !(c == '\\') && decide (32 ≤ c.toNat)

/-- A string whose characters all survive raw splicing into a JSON string
literal. -/
def jsonSafeString (s : String) : Bool :=
  s.data.all jsonSafeChar

/-- Input that cannot extend a decimal literal: empty, or starting with a
non-digit. -/
def delimOk (cs : List Char) : Bool :=
  match cs with
  | [] => true
  | c :: _ => !c.isDigit

mutual

/-- Fuel needed by `parseVal` on the serialization of a value. -/
def bound : JVal → Nat
  | .jarr xs => 2 + boundItems xs
  | .jobj fs => 2 + boundFields fs
  | _ => 1

/-- Fuel needed by `parseItemsLoop` on serialized array elements. -/
def boundItems : List JVal → Nat
  | [] => 0
  | x :: xs => 1 + bound x + boundItems xs

/-- Fuel needed by `parseFieldsLoop` on serialized object fields. -/
def boundFields : List (String × JVal) → Nat
  | [] => 0
  | (_, v) :: fs => 1 + bound v + boundFields fs

end

/-! ## Lemmas about decimal rendering -/

theorem natDigitsCore_succ (fuel n : Nat) (acc : List Char) :
    natDigitsCore (fuel + 1) n acc =
      if n < 10 then Nat.digitChar n :: acc
      else natDigitsCore fuel (n / 10) (Nat.digitChar (n % 10) :: acc) := rfl

theorem natDigitsCore_shift (n : Nat) : ∀ (fuel : Nat) (acc : List Char), n < fuel →
    natDigitsCore fuel n acc = natDigits n ++ acc := by
  induction n using Nat.strong_induction_on with
  | _ n ih =>
    intro fuel acc hfuel
    obtain ⟨f, rfl⟩ : ∃ f, fuel = f + 1 := ⟨fuel - 1, by omega⟩
    by_cases h10 : n < 10
    · rw [natDigitsCore_succ, if_pos h10]
      show _ = natDigitsCore (n + 1) n [] ++ acc
      rw [natDigitsCore_succ, if_pos h10]
      rfl
    · have hdiv : n / 10 < n := Nat.div_lt_self (by omega) (by omega)
      rw [natDigitsCore_succ, if_neg h10,
        ih (n / 10) hdiv f (Nat.digitChar (n % 10) :: acc) (by omega)]
      have hr : natDigits n = natDigits (n / 10) ++ [Nat.digitChar (n % 10)] := by
        show natDigitsCore (n + 1) n [] = _
        rw [natDigitsCore_succ, if_neg h10, ih (n / 10) hdiv n [Nat.digitChar (n % 10)] hdiv]
      rw [hr]
      simp

theorem natDigits_of_lt (n : Nat) (h : n < 10) : natDigits n = [Nat.digitChar n] := by
  show natDigitsCore (n + 1) n [] = _
  rw [natDigitsCore_succ, if_pos h]

theorem natDigits_of_ge (n : Nat) (h : ¬ n < 10) :
    natDigits n = natDigits (n / 10) ++ [Nat.digitChar (n % 10)] := by
  have hdiv : n / 10 < n := Nat.div_lt_self (by omega) (by omega)
  show natDigitsCore (n + 1) n [] = _
  rw [natDigitsCore_succ, if_neg h, natDigitsCore_shift (n / 10) n [Nat.digitChar (n % 10)] hdiv]

theorem digitsToNat_append_one (ds : List Char) (c : Char) :
    digitsToNat (ds ++ [c]) = digitsToNat ds * 10 + (c.toNat - 48) := by
  simp [digitsToNat, List.foldl_append]

theorem digitChar_toNat (d : Nat) (h : d < 10) : (Nat.digitChar d).toNat - 48 = d := by
  revert d
  decide

theorem digitChar_isDigit (d : Nat) (h : d < 10) : (Nat.digitChar d).isDigit = true := by
  revert d
  decide

theorem digitsToNat_natDigits (n : Nat) : digitsToNat (natDigits n) = n := by
  induction n using Nat.strong_induction_on with
  | _ n ih =>
    by_cases h10 : n < 10
    · rw [natDigits_of_lt n h10]
      have := digitChar_toNat n h10
      simp [digitsToNat]
      omega
    · have hdiv : n / 10 < n := Nat.div_lt_self (by omega) (by omega)
      rw [natDigits_of_ge n h10, digitsToNat_append_one, ih (n / 10) hdiv,
        digitChar_toNat (n % 10) (by omega)]
      omega

theorem natDigits_isDigit (n : Nat) : ∀ c ∈ natDigits n, c.isDigit = true := by
  induction n using Nat.strong_induction_on with
  | _ n ih =>
    by_cases h10 : n < 10
    · rw [natDigits_of_lt n h10]
      intro c hc
      simp at hc
      subst hc
      exact digitChar_isDigit n h10
    · have hdiv : n / 10 < n := Nat.div_lt_self (by omega) (by omega)
      rw [natDigits_of_ge n h10]
      intro c hc
      rcases List.mem_append.mp hc with h | h
      · exact ih (n / 10) hdiv c h
      · simp at h
        subst h
        exact digitChar_isDigit (n % 10) (by omega)

theorem natDigits_ne_nil (n : Nat) : natDigits n ≠ [] := by
  by_cases h10 : n < 10
  · rw [natDigits_of_lt n h10]
    simp
  · rw [natDigits_of_ge n h10]
    simp

theorem natToString_injective (a b : Nat) (h : natToString a = natToString b) : a = b := by
  have hd : natDigits a = natDigits b := congrArg String.data h
  have := digitsToNat_natDigits a
  rw [hd, digitsToNat_natDigits b] at this
  omega

/-! ## Lemmas about the JSON parser on serialized output -/

theorem spanDigits_of_digits (ds rest : List Char) (hd : ∀ c ∈ ds, c.isDigit = true)
    (hrest : delimOk rest = true) : spanDigits (ds ++ rest) = (ds, rest) := by
  induction ds with
  | nil =>
    cases rest with
    | nil => rfl
    | cons c cs =>
      simp [delimOk] at hrest
      simp [spanDigits, hrest]
  | cons c cs ih =>
    have hc : c.isDigit = true := hd c (by simp)
    have ih' := ih (fun x hx => hd x (by simp [hx]))
    simp [spanDigits, hc, ih']

theorem parseStringBody_quote (L : List Char) : parseStringBody ('"' :: L) = some ([], L) := by
  rw [parseStringBody.eq_def]
  simp

theorem parseStringBody_escQuote (L : List Char) :
    parseStringBody ('\\' :: '"' :: L) = (parseStringBody L).map (fun p => ('"' :: p.1, p.2)) := by
  rw [parseStringBody.eq_def]
  simp

theorem parseStringBody_escBackslash (L : List Char) :
    parseStringBody ('\\' :: '\\' :: L) = (parseStringBody L).map (fun p => ('\\' :: p.1, p.2)) := by
  rw [parseStringBody.eq_def]
  simp

theorem parseStringBody_escB (L : List Char) :
    parseStringBody ('\\' :: 'b' :: L) = (parseStringBody L).map (fun p => ('\x08' :: p.1, p.2)) := by
  rw [parseStringBody.eq_def]
  simp

theorem parseStringBody_escT (L : List Char) :
    parseStringBody ('\\' :: 't' :: L) = (parseStringBody L).map (fun p => ('\x09' :: p.1, p.2)) := by
  rw [parseStringBody.eq_def]
  simp

theorem parseStringBody_escN (L : List Char) :
    parseStringBody ('\\' :: 'n' :: L) = (parseStringBody L).map (fun p => ('\x0a' :: p.1, p.2)) := by
  rw [parseStringBody.eq_def]
  simp

theorem parseStringBody_escF (L : List Char) :
    parseStringBody ('\\' :: 'f' :: L) = (parseStringBody L).map (fun p => ('\x0c' :: p.1, p.2)) := by
  rw [parseStringBody.eq_def]
  simp

theorem parseStringBody_escR (L : List Char) :
    parseStringBody ('\\' :: 'r' :: L) = (parseStringBody L).map (fun p => ('\x0d' :: p.1, p.2)) := by
  rw [parseStringBody.eq_def]
  simp

theorem parseStringBody_escU (h1 h2 h3 h4 : Char) (L : List Char) (a b c2 d : Nat)
    (e1 : hexVal h1 = some a) (e2 : hexVal h2 = some b) (e3 : hexVal h3 = some c2)
    (e4 : hexVal h4 = some d) :
    parseStringBody ('\\' :: 'u' :: h1 :: h2 :: h3 :: h4 :: L) =
      (parseStringBody L).map
        (fun p => (Char.ofNat (4096 * a + 256 * b + 16 * c2 + d) :: p.1, p.2)) := by
  rw [parseStringBody.eq_def]
  simp [e1, e2, e3, e4]

theorem parseStringBody_plain (c : Char) (L : List Char) (h1 : ¬ c = '"') (h2 : ¬ c = '\\')
    (h3 : ¬ c.toNat < 32) :
    parseStringBody (c :: L) = (parseStringBody L).map (fun p => (c :: p.1, p.2)) := by
  rw [parseStringBody.eq_def]
  simp [h1, h2, h3]

theorem parseStringBody_escape (cs : List Char) : ∀ rest : List Char,
    parseStringBody (escapeList cs ++ '"' :: rest) = some (cs, rest) := by
  induction cs with
  | nil => intro rest; simpa [escapeList] using parseStringBody_quote rest
  | cons c cs ih =>
    intro rest
    have hassoc : escapeList (c :: cs) ++ '"' :: rest =
        escapeChar c ++ (escapeList cs ++ '"' :: rest) := by
      simp [escapeList]
    rw [hassoc]
    by_cases hq : c = '"'
    · subst hq
      have hesc : escapeChar '"' = ['\\', '"'] := by decide
      rw [hesc]
      simp only [List.cons_append, List.nil_append]
      rw [parseStringBody_escQuote, ih]
      rfl
    · by_cases hb : c = '\\'
      · subst hb
        have hesc : escapeChar '\\' = ['\\', '\\'] := by decide
        rw [hesc]
        simp only [List.cons_append, List.nil_append]
        rw [parseStringBody_escBackslash, ih]
        rfl
      · by_cases h8 : c = '\x08'
        · subst h8
          have hesc : escapeChar '\x08' = ['\\', 'b'] := by decide
          rw [hesc]
          simp only [List.cons_append, List.nil_append]
          rw [parseStringBody_escB, ih]
          rfl
        · by_cases h9 : c = '\x09'
          · subst h9
            have hesc : escapeChar '\x09' = ['\\', 't'] := by decide
            rw [hesc]
            simp only [List.cons_append, List.nil_append]
            rw [parseStringBody_escT, ih]
            rfl
          · by_cases ha : c = '\x0a'
            · subst ha
              have hesc : escapeChar '\x0a' = ['\\', 'n'] := by decide
              rw [hesc]
              simp only [List.cons_append, List.nil_append]
              rw [parseStringBody_escN, ih]
              rfl
            · by_cases hc12 : c = '\x0c'
              · subst hc12
                have hesc : escapeChar '\x0c' = ['\\', 'f'] := by decide
                rw [hesc]
                simp only [List.cons_append, List.nil_append]
                rw [parseStringBody_escF, ih]
                rfl
              · by_cases hd13 : c = '\x0d'
                · subst hd13
                  have hesc : escapeChar '\x0d' = ['\\', 'r'] := by decide
                  rw [hesc]
                  simp only [List.cons_append, List.nil_append]
                  rw [parseStringBody_escR, ih]
                  rfl
                · by_cases hctl : c.toNat < 32
                  · have h16a : hexVal (Nat.digitChar (c.toNat / 16)) = some (c.toNat / 16) := by
                      have hh : ∀ m, m < 32 → hexVal (Nat.digitChar (m / 16)) = some (m / 16) := by
                        decide
                      exact hh c.toNat hctl
                    have h16b : hexVal (Nat.digitChar (c.toNat % 16)) = some (c.toNat % 16) := by
                      have hh : ∀ m, m < 32 → hexVal (Nat.digitChar (m % 16)) = some (m % 16) := by
                        decide
                      exact hh c.toNat hctl
                    have hz : hexVal '0' = some 0 := by decide
                    have hchar : Char.ofNat (4096 * 0 + 256 * 0 + 16 * (c.toNat / 16) + c.toNat % 16) = c := by
                      have harith : 4096 * 0 + 256 * 0 + 16 * (c.toNat / 16) + c.toNat % 16 = c.toNat := by
                        omega
                      rw [harith]
                      have hround : (Char.ofNat c.toNat).toNat = c.toNat := by
                        have hh : ∀ m, m < 32 → (Char.ofNat m).toNat = m := by decide
                        exact hh c.toNat hctl
                      exact Char.eq_of_val_eq (UInt32.eq_of_val_eq (Fin.ext hround))
                    have hesc : escapeChar c =
                        ['\\', 'u', '0', '0', Nat.digitChar (c.toNat / 16),
                          Nat.digitChar (c.toNat % 16)] := by
                      simp [escapeChar, hq, hb, h8, h9, ha, hc12, hd13, hctl]
                    rw [hesc]
                    simp only [List.cons_append, List.nil_append]
                    rw [parseStringBody_escU '0' '0' (Nat.digitChar (c.toNat / 16))
                      (Nat.digitChar (c.toNat % 16)) _ 0 0 (c.toNat / 16) (c.toNat % 16)
                      hz hz h16a h16b, ih, hchar]
                    rfl
                  · have hesc : escapeChar c = [c] := by
                      simp [escapeChar, hq, hb, h8, h9, ha, hc12, hd13, hctl]
                    rw [hesc]
                    simp only [List.cons_append, List.nil_append]
                    rw [parseStringBody_plain c _ hq hb hctl, ih]
                    rfl

theorem string_mk_data (s : String) : String.mk s.data = s := rfl

theorem parseVal_null (fuel : Nat) (rest : List Char) :
    parseVal (fuel + 1) ('n' :: 'u' :: 'l' :: 'l' :: rest) = some (.jnull, rest) := by
  rw [parseVal.eq_def]
  simp

theorem parseVal_true (fuel : Nat) (rest : List Char) :
    parseVal (fuel + 1) ('t' :: 'r' :: 'u' :: 'e' :: rest) = some (.jbool true, rest) := by
  rw [parseVal.eq_def]
  simp

theorem parseVal_false (fuel : Nat) (rest : List Char) :
    parseVal (fuel + 1) ('f' :: 'a' :: 'l' :: 's' :: 'e' :: rest) = some (.jbool false, rest) := by
  rw [parseVal.eq_def]
  simp

theorem parseVal_str (fuel : Nat) (cs : List Char) :
    parseVal (fuel + 1) ('"' :: cs) =
      (parseStringBody cs).map (fun p => (JVal.jstr (String.mk p.1), p.2)) := by
  rw [parseVal.eq_def]
  simp

theorem parseVal_arr (fuel : Nat) (cs : List Char) :
    parseVal (fuel + 1) ('[' :: cs) =
      (parseItemsStart fuel cs).map (fun p => (JVal.jarr p.1, p.2)) := by
  rw [parseVal.eq_def]
  simp

theorem parseVal_obj (fuel : Nat) (cs : List Char) :
    parseVal (fuel + 1) ('\x7b' :: cs) =
      (parseFieldsStart fuel cs).map (fun p => (JVal.jobj p.1, p.2)) := by
  rw [parseVal.eq_def]
  simp

theorem parseVal_natDigits (fuel n : Nat) (rest : List Char) (hrest : delimOk rest = true) :
    parseVal (fuel + 1) (natDigits n ++ rest) = some (.jnum (n : Int), rest) := by
  obtain ⟨c, ds, hcd⟩ : ∃ c ds, natDigits n = c :: ds := by
    cases h : natDigits n with
    | nil => exact absurd h (natDigits_ne_nil n)
    | cons c ds => exact ⟨c, ds, rfl⟩
  have hdig : ∀ x ∈ natDigits n, x.isDigit = true := natDigits_isDigit n
  have hcdig : c.isDigit = true := by
    apply hdig
    rw [hcd]
    simp
  have hspan : spanDigits (natDigits n ++ rest) = (natDigits n, rest) :=
    spanDigits_of_digits (natDigits n) rest hdig hrest
  have hn : ¬ c = 'n' := by intro h; rw [h] at hcdig; exact absurd hcdig (by decide)
  have ht : ¬ c = 't' := by intro h; rw [h] at hcdig; exact absurd hcdig (by decide)
  have hf : ¬ c = 'f' := by intro h; rw [h] at hcdig; exact absurd hcdig (by decide)
  have hq : ¬ c = '"' := by intro h; rw [h] at hcdig; exact absurd hcdig (by decide)
  have hm : ¬ c = '-' := by intro h; rw [h] at hcdig; exact absurd hcdig (by decide)
  have hlb : ¬ c = '[' := by intro h; rw [h] at hcdig; exact absurd hcdig (by decide)
  have hob : ¬ c = '\x7b' := by intro h; rw [h] at hcdig; exact absurd hcdig (by decide)
  rw [hcd] at hspan ⊢
  rw [List.cons_append] at hspan ⊢
  rw [parseVal.eq_def]
  simp only [hn, ht, hf, hq, hm, hlb, hob, hcdig, if_false, if_true, if_neg, if_pos]
  rw [hspan]
  show some (JVal.jnum ((digitsToNat (c :: ds) : Int)), rest) = _
  rw [← hcd, digitsToNat_natDigits]

theorem parseVal_neg (fuel : Nat) (cs : List Char) :
    parseVal (fuel + 1) ('-' :: cs) =
      (match spanDigits cs with
       | ([], _) => none
       | (ds, rest) => some (.jnum (-(digitsToNat ds : Int)), rest)) := by
  rw [parseVal.eq_def]
  simp

theorem parseVal_intChars (fuel : Nat) (i : Int) (rest : List Char)
    (hrest : delimOk rest = true) :
    parseVal (fuel + 1) (intChars i ++ rest) = some (.jnum i, rest) := by
  by_cases hneg : i < 0
  · have : intChars i = '-' :: natDigits i.natAbs := by simp [intChars, hneg]
    rw [this, List.cons_append, parseVal_neg]
    obtain ⟨c, ds, hcd⟩ : ∃ c ds, natDigits i.natAbs = c :: ds := by
      cases h : natDigits i.natAbs with
      | nil => exact absurd h (natDigits_ne_nil _)
      | cons c ds => exact ⟨c, ds, rfl⟩
    have hspan : spanDigits (natDigits i.natAbs ++ rest) = (natDigits i.natAbs, rest) :=
      spanDigits_of_digits _ rest (natDigits_isDigit _) hrest
    rw [hspan, hcd]
    have hval : digitsToNat (c :: ds) = i.natAbs := by
      rw [← hcd, digitsToNat_natDigits]
    show some (JVal.jnum (-(digitsToNat (c :: ds) : Int)), rest) = _
    rw [hval]
    have hi : -(i.natAbs : Int) = i := by omega
    rw [hi]
  · have : intChars i = natDigits i.toNat := by simp [intChars, hneg]
    rw [this, parseVal_natDigits fuel i.toNat rest hrest]
    have : (i.toNat : Int) = i := by omega
    rw [this]

theorem bound_pos (v : JVal) : 1 ≤ bound v := by
  cases v <;> simp [bound] <;> omega

theorem stringify_head (v : JVal) :
    ∃ c cs', stringifyChars v = c :: cs' ∧ ¬ c = ']' ∧ ¬ c = '\x7d' := by
  cases v with
  | jnull => exact ⟨'n', ['u', 'l', 'l'], by simp [stringifyChars], by decide, by decide⟩
  | jbool b => cases b with
    | true => exact ⟨'t', ['r', 'u', 'e'], by simp [stringifyChars], by decide, by decide⟩
    | false => exact ⟨'f', ['a', 'l', 's', 'e'], by simp [stringifyChars], by decide, by decide⟩
  | jnum i =>
    by_cases hneg : i < 0
    · refine ⟨'-', natDigits i.natAbs, ?_, by decide, by decide⟩
      simp [stringifyChars, intChars, hneg]
    · obtain ⟨c, ds, hcd⟩ : ∃ c ds, natDigits i.toNat = c :: ds := by
        cases h : natDigits i.toNat with
        | nil => exact absurd h (natDigits_ne_nil _)
        | cons c ds => exact ⟨c, ds, rfl⟩
      have hcdig : c.isDigit = true := by
        apply natDigits_isDigit
        rw [hcd]
        simp
      refine ⟨c, ds, ?_, ?_, ?_⟩
      · simp [stringifyChars, intChars, hneg, hcd]
      · intro h; rw [h] at hcdig; exact absurd hcdig (by decide)
      · intro h; rw [h] at hcdig; exact absurd hcdig (by decide)
  | jstr s =>
    exact ⟨'"', escapeList s.data ++ ['"'], by simp [stringifyChars], by decide, by decide⟩
  | jarr xs =>
    exact ⟨'[', stringifyItems xs ++ [']'], by simp [stringifyChars], by decide, by decide⟩
  | jobj fs =>
    exact ⟨'\x7b', stringifyFields fs ++ ['\x7d'], by simp [stringifyChars], by decide, by decide⟩

theorem parseItemsStart_rbracket (fuel : Nat) (rest : List Char) :
    parseItemsStart (fuel + 1) (']' :: rest) = some ([], rest) := by
  rw [parseItemsStart.eq_def]
  simp

theorem parseItemsStart_ne (fuel : Nat) (c : Char) (T : List Char) (hne : ¬ c = ']') :
    parseItemsStart (fuel + 1) (c :: T) = parseItemsLoop fuel (c :: T) := by
  rw [parseItemsStart.eq_def]
  simp [hne]

theorem parseFieldsStart_rbrace (fuel : Nat) (rest : List Char) :
    parseFieldsStart (fuel + 1) ('\x7d' :: rest) = some ([], rest) := by
  rw [parseFieldsStart.eq_def]
  simp

theorem parseFieldsStart_ne (fuel : Nat) (c : Char) (T : List Char) (hne : ¬ c = '\x7d') :
    parseFieldsStart (fuel + 1) (c :: T) = parseFieldsLoop fuel (c :: T) := by
  rw [parseFieldsStart.eq_def]
  simp [hne]

mutual

theorem parseVal_stringify : ∀ (v : JVal) (fuel : Nat) (rest : List Char),
    bound v ≤ fuel → delimOk rest = true →
    parseVal fuel (stringifyChars v ++ rest) = some (v, rest)
  | .jnull, fuel, rest, hb, hd => by
    obtain ⟨f, rfl⟩ : ∃ f, fuel = f + 1 := ⟨fuel - 1, by simp [bound] at hb; omega⟩
    simp only [stringifyChars, List.cons_append, List.nil_append]
    exact parseVal_null f rest
  | .jbool true, fuel, rest, hb, hd => by
    obtain ⟨f, rfl⟩ : ∃ f, fuel = f + 1 := ⟨fuel - 1, by simp [bound] at hb; omega⟩
    simp only [stringifyChars, List.cons_append, List.nil_append]
    exact parseVal_true f rest
  | .jbool false, fuel, rest, hb, hd => by
    obtain ⟨f, rfl⟩ : ∃ f, fuel = f + 1 := ⟨fuel - 1, by simp [bound] at hb; omega⟩
    simp only [stringifyChars, List.cons_append, List.nil_append]
    exact parseVal_false f rest
  | .jnum i, fuel, rest, hb, hd => by
    obtain ⟨f, rfl⟩ : ∃ f, fuel = f + 1 := ⟨fuel - 1, by simp [bound] at hb; omega⟩
    simp only [stringifyChars]
    exact parseVal_intChars f i rest hd
  | .jstr s, fuel, rest, hb, hd => by
    obtain ⟨f, rfl⟩ : ∃ f, fuel = f + 1 := ⟨fuel - 1, by simp [bound] at hb; omega⟩
    simp only [stringifyChars, List.cons_append, List.append_assoc, List.singleton_append,
      List.nil_append]
    rw [parseVal_str, parseStringBody_escape s.data rest]
    simp [string_mk_data]
  | .jarr [], fuel, rest, hb, hd => by
    have h2 : 2 + boundItems ([] : List JVal) ≤ fuel := by simpa [bound] using hb
    obtain ⟨f, rfl⟩ : ∃ f, fuel = f + 1 := ⟨fuel - 1, by omega⟩
    obtain ⟨g, rfl⟩ : ∃ g, f = g + 1 := ⟨f - 1, by simp [boundItems] at h2; omega⟩
    simp only [stringifyChars, stringifyItems, List.cons_append, List.nil_append,
      List.singleton_append]
    rw [parseVal_arr, parseItemsStart_rbracket]
    rfl
  | .jarr (x :: xs'), fuel, rest, hb, hd => by
    have h2 : 2 + boundItems (x :: xs') ≤ fuel := by simpa [bound] using hb
    obtain ⟨f, rfl⟩ : ∃ f, fuel = f + 1 := ⟨fuel - 1, by omega⟩
    obtain ⟨g, rfl⟩ : ∃ g, f = g + 1 := ⟨f - 1, by simp [boundItems] at h2; omega⟩
    simp only [stringifyChars, List.cons_append, List.append_assoc, List.singleton_append,
      List.nil_append]
    rw [parseVal_arr]
    obtain ⟨c, cs', hc, hc1, _⟩ := stringify_head x
    obtain ⟨T, hT⟩ : ∃ T, stringifyItems (x :: xs') ++ ']' :: rest = c :: T := by
      cases xs' with
      | nil => exact ⟨cs' ++ ']' :: rest, by simp [stringifyItems, hc]⟩
      | cons y ys =>
        exact ⟨cs' ++ (',' :: (stringifyItems (y :: ys) ++ ']' :: rest)), by
          simp [stringifyItems, hc]⟩
    rw [hT, parseItemsStart_ne g c T hc1, ← hT,
      parseItemsLoop_stringify (x :: xs') (by simp) g rest
        (by simp [boundItems] at h2 ⊢; omega)]
    rfl
  | .jobj [], fuel, rest, hb, hd => by
    have h2 : 2 + boundFields ([] : List (String × JVal)) ≤ fuel := by simpa [bound] using hb
    obtain ⟨f, rfl⟩ : ∃ f, fuel = f + 1 := ⟨fuel - 1, by omega⟩
    obtain ⟨g, rfl⟩ : ∃ g, f = g + 1 := ⟨f - 1, by simp [boundFields] at h2; omega⟩
    simp only [stringifyChars, stringifyFields, List.cons_append, List.nil_append,
      List.singleton_append]
    rw [parseVal_obj, parseFieldsStart_rbrace]
    rfl
  | .jobj ((k, v) :: fs'), fuel, rest, hb, hd => by
    have h2 : 2 + boundFields ((k, v) :: fs') ≤ fuel := by simpa [bound] using hb
    obtain ⟨f, rfl⟩ : ∃ f, fuel = f + 1 := ⟨fuel - 1, by omega⟩
    obtain ⟨g, rfl⟩ : ∃ g, f = g + 1 := ⟨f - 1, by simp [boundFields] at h2; omega⟩
    simp only [stringifyChars, List.cons_append, List.append_assoc, List.singleton_append,
      List.nil_append]
    rw [parseVal_obj]
    obtain ⟨T, hT⟩ : ∃ T, stringifyFields ((k, v) :: fs') ++ '\x7d' :: rest = '"' :: T := by
      cases fs' with
      | nil =>
        exact ⟨escapeList k.data ++ '"' :: ':' :: stringifyChars v ++ '\x7d' :: rest, by
          simp [stringifyFields]⟩
      | cons g2 gs =>
        exact ⟨escapeList k.data ++ '"' :: ':' :: stringifyChars v ++
            ',' :: (stringifyFields (g2 :: gs) ++ '\x7d' :: rest), by
          simp [stringifyFields]⟩
    rw [hT, parseFieldsStart_ne g '"' T (by decide), ← hT,
      parseFieldsLoop_stringify ((k, v) :: fs') (by simp) g rest
        (by simp [boundFields] at h2 ⊢; omega)]
    rfl

theorem parseItemsLoop_stringify : ∀ (xs : List JVal), xs ≠ [] → ∀ (fuel : Nat) (rest : List Char),
    boundItems xs ≤ fuel →
    parseItemsLoop fuel (stringifyItems xs ++ ']' :: rest) = some (xs, rest)
  | [], hne, _, _, _ => absurd rfl hne
  | [x], _, fuel, rest, hb => by
    obtain ⟨f, rfl⟩ : ∃ f, fuel = f + 1 := ⟨fuel - 1, by simp [boundItems] at hb; omega⟩
    have hshape : stringifyItems [x] ++ ']' :: rest = stringifyChars x ++ ']' :: rest := by
      simp [stringifyItems]
    rw [hshape, parseItemsLoop.eq_def]
    have hp := parseVal_stringify x f (']' :: rest)
      (by simp [boundItems] at hb; omega) rfl
    simp only [hp]
  | x :: y :: ys, _, fuel, rest, hb => by
    obtain ⟨f, rfl⟩ : ∃ f, fuel = f + 1 := ⟨fuel - 1, by simp [boundItems] at hb; omega⟩
    have hbx : bound x + boundItems (y :: ys) ≤ f := by simp [boundItems] at hb ⊢; omega
    have hshape : stringifyItems (x :: y :: ys) ++ ']' :: rest =
        stringifyChars x ++ ',' :: (stringifyItems (y :: ys) ++ ']' :: rest) := by
      simp [stringifyItems]
    rw [hshape, parseItemsLoop.eq_def]
    have hp := parseVal_stringify x f (',' :: (stringifyItems (y :: ys) ++ ']' :: rest))
      (by omega) rfl
    have hrec := parseItemsLoop_stringify (y :: ys) (by simp) f rest (by omega)
    simp only [hp, hrec]
    rfl

theorem parseFieldsLoop_stringify : ∀ (fs : List (String × JVal)), fs ≠ [] →
    ∀ (fuel : Nat) (rest : List Char), boundFields fs ≤ fuel →
    parseFieldsLoop fuel (stringifyFields fs ++ '\x7d' :: rest) = some (fs, rest)
  | [], hne, _, _, _ => absurd rfl hne
  | [(k, v)], _, fuel, rest, hb => by
    obtain ⟨f, rfl⟩ : ∃ f, fuel = f + 1 := ⟨fuel - 1, by simp [boundFields] at hb; omega⟩
    have hshape : stringifyFields [(k, v)] ++ '\x7d' :: rest =
        '"' :: (escapeList k.data ++ '"' :: (':' :: (stringifyChars v ++ '\x7d' :: rest))) := by
      simp [stringifyFields]
    rw [hshape, parseFieldsLoop.eq_def]
    have hk := parseStringBody_escape k.data (':' :: (stringifyChars v ++ '\x7d' :: rest))
    have hp := parseVal_stringify v f ('\x7d' :: rest)
      (by simp [boundFields] at hb; omega) rfl
    simp only [hk, hp, string_mk_data]
    rfl
  | (k, v) :: g2 :: gs, _, fuel, rest, hb => by
    obtain ⟨f, rfl⟩ : ∃ f, fuel = f + 1 := ⟨fuel - 1, by simp [boundFields] at hb; omega⟩
    have hbv : bound v + boundFields (g2 :: gs) ≤ f := by simp [boundFields] at hb ⊢; omega
    have hshape : stringifyFields ((k, v) :: g2 :: gs) ++ '\x7d' :: rest =
        '"' :: (escapeList k.data ++ '"' :: (':' :: (stringifyChars v ++
          ',' :: (stringifyFields (g2 :: gs) ++ '\x7d' :: rest)))) := by
      simp [stringifyFields]
    rw [hshape, parseFieldsLoop.eq_def]
    have hk := parseStringBody_escape k.data
      (':' :: (stringifyChars v ++ ',' :: (stringifyFields (g2 :: gs) ++ '\x7d' :: rest)))
    have hp := parseVal_stringify v f
      (',' :: (stringifyFields (g2 :: gs) ++ '\x7d' :: rest)) (by omega) rfl
    have hrec := parseFieldsLoop_stringify (g2 :: gs) (by simp) f rest (by omega)
    simp only [hk, hp, hrec, string_mk_data]
    rfl

end

theorem intChars_ne_nil (i : Int) : intChars i ≠ [] := by
  by_cases hneg : i < 0
  · simp [intChars, hneg]
  · simp [intChars, hneg, natDigits_ne_nil]

mutual

theorem bound_le_len : ∀ v : JVal, bound v ≤ 2 * (stringifyChars v).length
  | .jnull => by simp [bound, stringifyChars]
  | .jbool true => by simp [bound, stringifyChars]
  | .jbool false => by simp [bound, stringifyChars]
  | .jnum i => by
    have h := intChars_ne_nil i
    have : 1 ≤ (intChars i).length := by
      cases hi : intChars i with
      | nil => exact absurd hi h
      | cons c cs => simp
    simp [bound, stringifyChars]
    omega
  | .jstr s => by
    simp [bound, stringifyChars]
    omega
  | .jarr xs => by
    have h := boundItems_le xs
    simp [bound, stringifyChars]
    omega
  | .jobj fs => by
    have h := boundFields_le fs
    simp [bound, stringifyChars]
    omega

theorem boundItems_le : ∀ xs : List JVal, boundItems xs ≤ 2 * (stringifyItems xs).length + 1
  | [] => by simp [boundItems, stringifyItems]
  | [x] => by
    have h := bound_le_len x
    simp [boundItems, stringifyItems]
    omega
  | x :: y :: ys => by
    have h1 := bound_le_len x
    have h2 := boundItems_le (y :: ys)
    simp [boundItems, stringifyItems] at h2 ⊢
    omega

theorem boundFields_le : ∀ fs : List (String × JVal), boundFields fs ≤ 2 * (stringifyFields fs).length + 1
  | [] => by simp [boundFields, stringifyFields]
  | [(k, v)] => by
    have h := bound_le_len v
    simp [boundFields, stringifyFields]
    omega
  | (k, v) :: g2 :: gs => by
    have h1 := bound_le_len v
    have h2 := boundFields_le (g2 :: gs)
    simp [boundFields, stringifyFields] at h2 ⊢
    omega

end

theorem jsonParse_stringify (v : JVal) : jsonParse (jsonStringify v) = some v := by
  have hp := parseVal_stringify v (2 * (stringifyChars v).length + 2) []
    (le_trans (bound_le_len v) (by omega)) rfl
  rw [List.append_nil] at hp
  unfold jsonParse
  have hdata : (jsonStringify v).data = stringifyChars v := rfl
  have hlen : (jsonStringify v).length = (stringifyChars v).length := rfl
  rw [hdata, hlen, hp]

theorem escapeChar_safe (c : Char) (h : jsonSafeChar c = true) : escapeChar c = [c] := by
  simp only [jsonSafeChar, Bool.and_eq_true, Bool.not_eq_true', beq_eq_false_iff_ne,
    decide_eq_true_eq, ne_eq] at h
  obtain ⟨⟨h1, h2⟩, h3⟩ := h
  have h8 : ¬ c = '\x08' := by intro hc; rw [hc] at h3; exact absurd h3 (by decide)
  have h9 : ¬ c = '\x09' := by intro hc; rw [hc] at h3; exact absurd h3 (by decide)
  have ha : ¬ c = '\x0a' := by intro hc; rw [hc] at h3; exact absurd h3 (by decide)
  have hc12 : ¬ c = '\x0c' := by intro hc; rw [hc] at h3; exact absurd h3 (by decide)
  have hd13 : ¬ c = '\x0d' := by intro hc; rw [hc] at h3; exact absurd h3 (by decide)
  have hctl : ¬ c.toNat < 32 := Nat.not_lt.mpr h3
  simp [escapeChar, h1, h2, h8, h9, ha, hc12, hd13, hctl]

theorem escapeList_safe (cs : List Char) (h : ∀ c ∈ cs, jsonSafeChar c = true) :
    escapeList cs = cs := by
  induction cs with
  | nil => rfl
  | cons c cs ih =>
    simp [escapeList, escapeChar_safe c (h c (by simp)), ih (fun x hx => h x (by simp [hx]))]

theorem string_data_ext (a b : String) (h : a.data = b.data) : a = b := by
  cases a
  cases b
  simp at h
  rw [h]

theorem request_eq_stringify (req rpcId method : String) (args : JVal)
    (h1 : jsonSafeString req = true) (h2 : jsonSafeString rpcId = true)
    (h3 : jsonSafeString method = true) :
    MessageFactory.request req rpcId method args =
      jsonStringify (.jobj [("req", .jstr req), ("rpcId", .jstr rpcId),
        ("method", .jstr method), ("args", args)]) := by
  have e1 : escapeList req.data = req.data := escapeList_safe _ (List.all_eq_true.mp h1)
  have e2 : escapeList rpcId.data = rpcId.data := escapeList_safe _ (List.all_eq_true.mp h2)
  have e3 : escapeList method.data = method.data := escapeList_safe _ (List.all_eq_true.mp h3)
  apply string_data_ext
  have happ : ∀ a b : String, (a ++ b).data = a.data ++ b.data := fun a b => rfl
  simp only [MessageFactory.request, jsonStringify, happ]
  show _ = stringifyChars _
  simp [stringifyChars, stringifyFields, e1, e2, e3]
  simp [escapeList, escapeChar]

/-! ## Wire-codec round trip (claim C2) -/

/-- Claim C2 (amended): for every correlation id, capability id and method
name consisting solely of JSON-safe characters (no quote, no backslash, no
control character) and every argument value, decoding the text produced by
the request encoder yields a Request whose req, rpcId, method and args
fields equal the originals. -/
theorem decode_request_roundtrip (req rpcId method : String) (args : JVal)
    (h1 : jsonSafeString req = true) (h2 : jsonSafeString rpcId = true)
    (h3 : jsonSafeString method = true) :
    decode (MessageFactory.request req rpcId method args) =
      some (WireMessage.request (some (.jstr req)) (some (.jstr rpcId))
        (some (.jstr method)) (some args)) := by
  rw [decode, request_eq_stringify req rpcId method args h1 h2 h3, jsonParse_stringify]
  simp [classify, getField, truthy, List.filter]

/-- Claim C2 witness: the spec's own scenario values round-trip. -/
theorem decode_request_roundtrip_witness :
    jsonSafeString "1" = true ∧ jsonSafeString "svc.foo" = true ∧
    jsonSafeString "bar" = true ∧
    decode (MessageFactory.request "1" "svc.foo" "bar" (JVal.jarr [JVal.jnum 1, JVal.jnum 2])) =
      some (WireMessage.request (some (.jstr "1")) (some (.jstr "svc.foo"))
        (some (.jstr "bar")) (some (JVal.jarr [JVal.jnum 1, JVal.jnum 2]))) :=
  ⟨by decide, by decide, by decide,
    decode_request_roundtrip "1" "svc.foo" "bar" (JVal.jarr [JVal.jnum 1, JVal.jnum 2])
      (by decide) (by decide) (by decide)⟩

/-- Claim C2 counterexample: a method name containing a double quote breaks
the round trip, because `MessageFactory.request` splices the name into the
JSON text without escaping; the resulting text is not valid JSON, so
decoding fails instead of reproducing the request fields. -/
theorem request_roundtrip_fails_on_quote :
    decode (MessageFactory.request "1" "svc.foo" "x\"" (JVal.jarr [])) = none ∧
    ¬ decode (MessageFactory.request "1" "svc.foo" "x\"" (JVal.jarr [])) =
        some (WireMessage.request (some (.jstr "1")) (some (.jstr "svc.foo"))
          (some (.jstr "x\"")) (some (JVal.jarr []))) := by
  have h0 : decode (MessageFactory.request "1" "svc.foo" "x\"" (JVal.jarr [])) = none := rfl
  refine ⟨h0, ?_⟩
  rw [h0]
  simp

/-! ## Dispatch-path claims -/

/-- Claim C1 (code evaluates against the claim): with call "1" pending,
delivering the reply text produced by the peer's own
`MessageFactory.replyErr` for a detail-less failure — exactly
the text with seq "1" and a null err field — makes `_receiveOneMessage`
resolve the call's DeferredResult successfully with no value
(`resolveOk undefined`), not as a failure: the `if (msg.err)` truthiness
test is false for `null`, so the error branch is skipped. -/
theorem err_null_reply_resolves_ok :
    MessageFactory.replyErr "1" none = "\x7b\"seq\":\"1\",\"err\":null\x7d" ∧
    RPCManager.receiveOneMessage
        { lastMessageId := 1, pendingRPCReplies := ["1"], invokedHandlers := [],
          hasBigHandler := false }
        "\x7b\"seq\":\"1\",\"err\":null\x7d" =
      ([Effect.deletePending "1", Effect.resolveOk "1" none], none) :=
  ⟨rfl, rfl⟩

/-- Dispatching a reply whose sequence key is not a pending id warns and
drops the message (source lines 46-49). -/
theorem receiveParsed_of_unknown (st : RPCManagerState) (msg : JVal)
    (hseq : truthy (getField msg "seq") = true)
    (hnm : jsKeyOfOpt (getField msg "seq") ∉ st.pendingRPCReplies) :
    RPCManager.receiveParsed st msg = ([Effect.warnUnknownSeq], none) := by
  simp [RPCManager.receiveParsed, hseq, hnm]

/-- Claim C6: delivering a reply message whose seq matches no pending
outbound call logs a warning and drops the message: the dispatch does not
throw, and applying its effect trace leaves the manager state — the
pending-calls mapping included — unchanged, so no other pending call's
DeferredResult is touched. -/
theorem unknown_seq_dropped (st : RPCManagerState) (msg : JVal)
    (hseq : truthy (getField msg "seq") = true)
    (hunknown : st.pendingRPCReplies.contains (jsKeyOfOpt (getField msg "seq")) = false) :
    RPCManager.receiveParsed st msg = ([Effect.warnUnknownSeq], none) ∧
    applyEffects st [Effect.warnUnknownSeq] = st := by
  have hnm : jsKeyOfOpt (getField msg "seq") ∉ st.pendingRPCReplies := by simpa using hunknown
  exact ⟨receiveParsed_of_unknown st msg hseq hnm, rfl⟩

/-- Claim C6 witness: a reply with seq "1" while only "2" is pending. -/
theorem unknown_seq_dropped_witness :
    truthy (getField (JVal.jobj [("seq", JVal.jstr "1")]) "seq") = true ∧
    (RPCManagerState.mk 2 ["2"] [] false).pendingRPCReplies.contains
      (jsKeyOfOpt (getField (JVal.jobj [("seq", JVal.jstr "1")]) "seq")) = false ∧
    RPCManager.receiveParsed (RPCManagerState.mk 2 ["2"] [] false)
        (JVal.jobj [("seq", JVal.jstr "1")]) = ([Effect.warnUnknownSeq], none) ∧
    applyEffects (RPCManagerState.mk 2 ["2"] [] false) [Effect.warnUnknownSeq] =
      RPCManagerState.mk 2 ["2"] [] false :=
  ⟨rfl, rfl,
    (unknown_seq_dropped (RPCManagerState.mk 2 ["2"] [] false)
      (JVal.jobj [("seq", JVal.jstr "1")]) rfl rfl).1,
    (unknown_seq_dropped (RPCManagerState.mk 2 ["2"] [] false)
      (JVal.jobj [("seq", JVal.jstr "1")]) rfl rfl).2⟩

/-- Claim C7: with no handler registered, dispatching a message classified
as a request (no truthy seq, cancel or err field) throws; messages with a
truthy seq (replies), a truthy cancel, or a bare truthy err are still
processed without throwing — the handler check is made lazily, only on the
request fall-through branch. -/
theorem request_without_handler_fatal (st : RPCManagerState) (msg : JVal)
    (hnohandler : st.hasBigHandler = false) :
    (truthy (getField msg "seq") = false → truthy (getField msg "cancel") = false →
      truthy (getField msg "err") = false →
      RPCManager.receiveParsed st msg =
        ([], some "got message before big handler attached!")) ∧
    ((truthy (getField msg "seq") = true ∨ truthy (getField msg "cancel") = true ∨
      truthy (getField msg "err") = true) →
      (RPCManager.receiveParsed st msg).2 = none) := by
  constructor
  · intro hs hc he
    simp [RPCManager.receiveParsed, hs, hc, he, hnohandler]
  · intro h
    unfold RPCManager.receiveParsed
    repeat' split
    all_goals try simp_all
    all_goals split_ifs <;> rfl



/-- Claim C10: dispatching a reply for a pending id emits the
`deletePending` effect strictly before the resolution effect, emits
exactly one resolution effect for that id, leaves the id absent from the
pending-calls mapping afterwards, and a second delivery of the same reply
against the updated state is classified as unknown and dropped with a
warning. -/
theorem reply_deleted_before_resolve (st : RPCManagerState) (msg : JVal)
    (hseq : truthy (getField msg "seq") = true)
    (hknown : st.pendingRPCReplies.contains (jsKeyOfOpt (getField msg "seq")) = true) :
    ∃ r,
      RPCManager.receiveParsed st msg =
        ([Effect.deletePending (jsKeyOfOpt (getField msg "seq")), r], none) ∧
      ((∃ res, r = Effect.resolveOk (jsKeyOfOpt (getField msg "seq")) res) ∨
       (∃ p, r = Effect.resolveErr (jsKeyOfOpt (getField msg "seq")) p)) ∧
      (applyEffects st (RPCManager.receiveParsed st msg).1).pendingRPCReplies.contains
        (jsKeyOfOpt (getField msg "seq")) = false ∧
      RPCManager.receiveParsed (applyEffects st (RPCManager.receiveParsed st msg).1) msg =
        ([Effect.warnUnknownSeq], none) := by
  have hmem : jsKeyOfOpt (getField msg "seq") ∈ st.pendingRPCReplies := by simpa using hknown
  have h1 : ∃ r,
      RPCManager.receiveParsed st msg =
        ([Effect.deletePending (jsKeyOfOpt (getField msg "seq")), r], none) ∧
      ((∃ res, r = Effect.resolveOk (jsKeyOfOpt (getField msg "seq")) res) ∨
       (∃ p, r = Effect.resolveErr (jsKeyOfOpt (getField msg "seq")) p)) := by
    by_cases herr : truthy (getField msg "err") = true
    · by_cases hmark :
        truthy (getField ((getField msg "err").getD JVal.jnull) "$isError") = true
      · refine ⟨Effect.resolveErr (jsKeyOfOpt (getField msg "seq"))
          (ErrPayload.rich (getField ((getField msg "err").getD JVal.jnull) "name")
            (getField ((getField msg "err").getD JVal.jnull) "message")
            (getField ((getField msg "err").getD JVal.jnull) "stack")), ?_, Or.inr ⟨_, rfl⟩⟩
        simp [RPCManager.receiveParsed, hseq, hmem, herr, hmark]
      · refine ⟨Effect.resolveErr (jsKeyOfOpt (getField msg "seq"))
          (ErrPayload.raw ((getField msg "err").getD JVal.jnull)), ?_, Or.inr ⟨_, rfl⟩⟩
        simp [RPCManager.receiveParsed, hseq, hmem, herr, hmark]
    · refine ⟨Effect.resolveOk (jsKeyOfOpt (getField msg "seq")) (getField msg "res"),
        ?_, Or.inl ⟨_, rfl⟩⟩
      simp [RPCManager.receiveParsed, hseq, hmem, herr]
  obtain ⟨r, hr, hshape⟩ := h1
  have hstate : (applyEffects st (RPCManager.receiveParsed st msg).1).pendingRPCReplies =
      st.pendingRPCReplies.filter (fun x => !(x == jsKeyOfOpt (getField msg "seq"))) := by
    rw [hr]
    rcases hshape with ⟨res, rfl⟩ | ⟨p, rfl⟩ <;> rfl
  refine ⟨r, hr, hshape, ?_, ?_⟩
  · rw [hstate]
    simp
  · apply receiveParsed_of_unknown _ msg hseq
    rw [hstate]
    simp

/-- Claim C9: dispatching an inbound request registers the in-flight
invocation under its id (so a concurrently delivered Cancel for that id
finds it and invokes its cancel capability), and completing the invocation
— success or failure — deregisters it (its id is no longer in the
inbound-invocations mapping) and sends exactly the corresponding reply
(`replyOK` or `replyErr`). -/
theorem inbound_invocation_lifecycle (st : RPCManagerState) (msg : JVal)
    (hhandler : st.hasBigHandler = true)
    (hseq : truthy (getField msg "seq") = false)
    (hcancel : truthy (getField msg "cancel") = false)
    (herr : truthy (getField msg "err") = false)
    (hkey : ¬ jsKeyOfOpt (getField msg "req") = "") :
    RPCManager.receiveParsed st msg =
      ([Effect.registerInvocation (jsKeyOfOpt (getField msg "req")) (getField msg "rpcId")
          (getField msg "method") (getField msg "args")], none) ∧
    (applyEffects st (RPCManager.receiveParsed st msg).1).invokedHandlers.contains
        (jsKeyOfOpt (getField msg "req")) = true ∧
    RPCManager.receiveParsed (applyEffects st (RPCManager.receiveParsed st msg).1)
        (JVal.jobj [("cancel", JVal.jstr (jsKeyOfOpt (getField msg "req")))]) =
      ([Effect.cancelInvoked (jsKeyOfOpt (getField msg "req"))], none) ∧
    (∀ (st' : RPCManagerState) (res : Option JVal),
      (RPCManager.completeInvocation st' (jsKeyOfOpt (getField msg "req")) (.ok res)).2 =
        [Effect.sendWire (MessageFactory.replyOK (jsKeyOfOpt (getField msg "req")) res)] ∧
      (RPCManager.completeInvocation st' (jsKeyOfOpt (getField msg "req"))
          (.ok res)).1.invokedHandlers.contains (jsKeyOfOpt (getField msg "req")) = false) ∧
    (∀ (st' : RPCManagerState) (e : Option JVal),
      (RPCManager.completeInvocation st' (jsKeyOfOpt (getField msg "req")) (.error e)).2 =
        [Effect.sendWire (MessageFactory.replyErr (jsKeyOfOpt (getField msg "req")) e)] ∧
      (RPCManager.completeInvocation st' (jsKeyOfOpt (getField msg "req"))
          (.error e)).1.invokedHandlers.contains (jsKeyOfOpt (getField msg "req")) = false) := by
  have hd : RPCManager.receiveParsed st msg =
      ([Effect.registerInvocation (jsKeyOfOpt (getField msg "req")) (getField msg "rpcId")
          (getField msg "method") (getField msg "args")], none) := by
    simp [RPCManager.receiveParsed, hseq, hcancel, herr, hhandler]
  have hreg' : (applyEffects st [Effect.registerInvocation (jsKeyOfOpt (getField msg "req"))
      (getField msg "rpcId") (getField msg "method")
      (getField msg "args")]).invokedHandlers.contains
      (jsKeyOfOpt (getField msg "req")) = true := by
    show (if st.invokedHandlers.contains (jsKeyOfOpt (getField msg "req")) = true then st
        else { st with invokedHandlers :=
          st.invokedHandlers ++ [jsKeyOfOpt (getField msg "req")] }).invokedHandlers.contains
      (jsKeyOfOpt (getField msg "req")) = true
    split_ifs with hc
    · exact hc
    · simp
  have hreg : (applyEffects st (RPCManager.receiveParsed st msg).1).invokedHandlers.contains
      (jsKeyOfOpt (getField msg "req")) = true := by
    rw [hd]
    exact hreg'
  have hgetc : getField (JVal.jobj [("cancel", JVal.jstr (jsKeyOfOpt (getField msg "req")))])
      "cancel" = some (JVal.jstr (jsKeyOfOpt (getField msg "req"))) := rfl
  have hgets : getField (JVal.jobj [("cancel", JVal.jstr (jsKeyOfOpt (getField msg "req")))])
      "seq" = none := rfl
  have hgete2 : getField (JVal.jobj [("cancel", JVal.jstr (jsKeyOfOpt (getField msg "req")))])
      "err" = none := rfl
  have hkk : jsKeyOfOpt (some (JVal.jstr (jsKeyOfOpt (getField msg "req")))) =
      jsKeyOfOpt (getField msg "req") := rfl
  have hmm : jsKeyOfOpt (getField msg "req") ∈
      (applyEffects st [Effect.registerInvocation (jsKeyOfOpt (getField msg "req"))
        (getField msg "rpcId") (getField msg "method")
        (getField msg "args")]).invokedHandlers := by
    simpa using hreg'
  have hcanc' : RPCManager.receiveParsed
      (applyEffects st [Effect.registerInvocation (jsKeyOfOpt (getField msg "req"))
        (getField msg "rpcId") (getField msg "method") (getField msg "args")])
      (JVal.jobj [("cancel", JVal.jstr (jsKeyOfOpt (getField msg "req")))]) =
      ([Effect.cancelInvoked (jsKeyOfOpt (getField msg "req"))], none) := by
    unfold RPCManager.receiveParsed
    rw [hgetc, hgets, hgete2, hkk]
    simp [truthy, hkey, hmm]
  have hcanc : RPCManager.receiveParsed (applyEffects st (RPCManager.receiveParsed st msg).1)
      (JVal.jobj [("cancel", JVal.jstr (jsKeyOfOpt (getField msg "req")))]) =
      ([Effect.cancelInvoked (jsKeyOfOpt (getField msg "req"))], none) := by
    rw [hd]
    exact hcanc'
  refine ⟨hd, hreg, hcanc, ?_, ?_⟩
  · intro st' res
    refine ⟨rfl, ?_⟩
    show (st'.invokedHandlers.filter
      (fun x => !(x == jsKeyOfOpt (getField msg "req")))).contains
      (jsKeyOfOpt (getField msg "req")) = false
    simp
  · intro st' e
    refine ⟨rfl, ?_⟩
    show (st'.invokedHandlers.filter
      (fun x => !(x == jsKeyOfOpt (getField msg "req")))).contains
      (jsKeyOfOpt (getField msg "req")) = false
    simp

/-- Claim C8: requesting cancellation of a pending outbound call whose
LazyPromise is still pending sends exactly one Cancel wire message (a
second cancellation request sends nothing), touches no manager state — in
particular the pending-calls entry survives — and a reply for that id
arriving afterwards still finds the entry, deletes it and resolves the
DeferredResult normally. -/
theorem cancel_then_reply (st : RPCManagerState) (req : String) (lp : LazyPromiseState)
    (res : JVal)
    (hmem : st.pendingRPCReplies.contains req = true)
    (hpending : lp.resolution = LazyPromiseResolution.pending)
    (hnc : lp.cancelRequested = false)
    (hreq : ¬ req = "") :
    (outboundCancel req lp).2 = [MessageFactory.cancel req] ∧
    (outboundCancel req (outboundCancel req lp).1).2 = [] ∧
    RPCManager.receiveParsed st (JVal.jobj [("seq", JVal.jstr req), ("res", res)]) =
      ([Effect.deletePending req, Effect.resolveOk req (some res)], none) := by
  have hmem' : req ∈ st.pendingRPCReplies := by simpa using hmem
  have hgets : getField (JVal.jobj [("seq", JVal.jstr req), ("res", res)]) "seq" =
      some (JVal.jstr req) := rfl
  have hgete : getField (JVal.jobj [("seq", JVal.jstr req), ("res", res)]) "err" = none := rfl
  have hgetr : getField (JVal.jobj [("seq", JVal.jstr req), ("res", res)]) "res" =
      some res := rfl
  refine ⟨?_, ?_, ?_⟩
  · simp [outboundCancel, LazyPromiseState.cancel, hpending, hnc]
  · simp [outboundCancel, LazyPromiseState.cancel, hpending, hnc]
  · have hkk : jsKeyOfOpt (some (JVal.jstr req)) = req := rfl
    unfold RPCManager.receiveParsed
    rw [hgets, hgete, hgetr, hkk]
    simp [truthy, hreq, hmem']

/-- Claim C7 witness: a request delivered to a fresh manager with no
handler throws, while a reply delivered to it does not. -/
theorem request_without_handler_fatal_witness :
    (RPCManagerState.mk 0 [] [] false).hasBigHandler = false ∧
    ((truthy (getField (JVal.jobj [("req", JVal.jstr "1"), ("rpcId", JVal.jstr "a")]) "seq") = false →
      truthy (getField (JVal.jobj [("req", JVal.jstr "1"), ("rpcId", JVal.jstr "a")]) "cancel") = false →
      truthy (getField (JVal.jobj [("req", JVal.jstr "1"), ("rpcId", JVal.jstr "a")]) "err") = false →
      RPCManager.receiveParsed (RPCManagerState.mk 0 [] [] false)
          (JVal.jobj [("req", JVal.jstr "1"), ("rpcId", JVal.jstr "a")]) =
        ([], some "got message before big handler attached!")) ∧
     ((truthy (getField (JVal.jobj [("req", JVal.jstr "1"), ("rpcId", JVal.jstr "a")]) "seq") = true ∨
       truthy (getField (JVal.jobj [("req", JVal.jstr "1"), ("rpcId", JVal.jstr "a")]) "cancel") = true ∨
       truthy (getField (JVal.jobj [("req", JVal.jstr "1"), ("rpcId", JVal.jstr "a")]) "err") = true) →
      (RPCManager.receiveParsed (RPCManagerState.mk 0 [] [] false)
          (JVal.jobj [("req", JVal.jstr "1"), ("rpcId", JVal.jstr "a")])).2 = none)) :=
  ⟨rfl, request_without_handler_fatal (RPCManagerState.mk 0 [] [] false)
    (JVal.jobj [("req", JVal.jstr "1"), ("rpcId", JVal.jstr "a")]) rfl⟩

/-- Claim C10 witness: a reply with seq "1" and result 42 delivered while
"1" is pending. -/
theorem reply_deleted_before_resolve_witness :
    truthy (getField (JVal.jobj [("seq", JVal.jstr "1"), ("res", JVal.jnum 42)]) "seq") = true ∧
    (RPCManagerState.mk 2 ["1"] [] false).pendingRPCReplies.contains
      (jsKeyOfOpt (getField (JVal.jobj [("seq", JVal.jstr "1"), ("res", JVal.jnum 42)]) "seq")) = true ∧
    (∃ r,
      RPCManager.receiveParsed (RPCManagerState.mk 2 ["1"] [] false)
          (JVal.jobj [("seq", JVal.jstr "1"), ("res", JVal.jnum 42)]) =
        ([Effect.deletePending (jsKeyOfOpt (getField (JVal.jobj [("seq", JVal.jstr "1"),
            ("res", JVal.jnum 42)]) "seq")), r], none) ∧
      ((∃ res, r = Effect.resolveOk (jsKeyOfOpt (getField (JVal.jobj [("seq", JVal.jstr "1"),
          ("res", JVal.jnum 42)]) "seq")) res) ∨
       (∃ p, r = Effect.resolveErr (jsKeyOfOpt (getField (JVal.jobj [("seq", JVal.jstr "1"),
          ("res", JVal.jnum 42)]) "seq")) p)) ∧
      (applyEffects (RPCManagerState.mk 2 ["1"] [] false)
          (RPCManager.receiveParsed (RPCManagerState.mk 2 ["1"] [] false)
            (JVal.jobj [("seq", JVal.jstr "1"), ("res", JVal.jnum 42)])).1).pendingRPCReplies.contains
        (jsKeyOfOpt (getField (JVal.jobj [("seq", JVal.jstr "1"), ("res", JVal.jnum 42)]) "seq")) = false ∧
      RPCManager.receiveParsed (applyEffects (RPCManagerState.mk 2 ["1"] [] false)
          (RPCManager.receiveParsed (RPCManagerState.mk 2 ["1"] [] false)
            (JVal.jobj [("seq", JVal.jstr "1"), ("res", JVal.jnum 42)])).1)
          (JVal.jobj [("seq", JVal.jstr "1"), ("res", JVal.jnum 42)]) =
        ([Effect.warnUnknownSeq], none)) :=
  ⟨rfl, rfl, reply_deleted_before_resolve (RPCManagerState.mk 2 ["1"] [] false)
    (JVal.jobj [("seq", JVal.jstr "1"), ("res", JVal.jnum 42)]) rfl rfl⟩

/-- Claim C9 witness: a request with id "5" dispatched to a manager with a
registered handler. -/
theorem inbound_invocation_lifecycle_witness :
    (RPCManagerState.mk 0 [] [] true).hasBigHandler = true ∧
    truthy (getField (JVal.jobj [("req", JVal.jstr "5"), ("rpcId", JVal.jstr "a"),
      ("method", JVal.jstr "m"), ("args", JVal.jarr [])]) "seq") = false ∧
    truthy (getField (JVal.jobj [("req", JVal.jstr "5"), ("rpcId", JVal.jstr "a"),
      ("method", JVal.jstr "m"), ("args", JVal.jarr [])]) "cancel") = false ∧
    truthy (getField (JVal.jobj [("req", JVal.jstr "5"), ("rpcId", JVal.jstr "a"),
      ("method", JVal.jstr "m"), ("args", JVal.jarr [])]) "err") = false ∧
    ¬ jsKeyOfOpt (getField (JVal.jobj [("req", JVal.jstr "5"), ("rpcId", JVal.jstr "a"),
      ("method", JVal.jstr "m"), ("args", JVal.jarr [])]) "req") = "" ∧
    RPCManager.receiveParsed (RPCManagerState.mk 0 [] [] true)
        (JVal.jobj [("req", JVal.jstr "5"), ("rpcId", JVal.jstr "a"),
          ("method", JVal.jstr "m"), ("args", JVal.jarr [])]) =
      ([Effect.registerInvocation "5" (some (JVal.jstr "a")) (some (JVal.jstr "m"))
          (some (JVal.jarr []))], none) :=
  ⟨rfl, rfl, rfl, rfl, by decide,
    (inbound_invocation_lifecycle (RPCManagerState.mk 0 [] [] true)
      (JVal.jobj [("req", JVal.jstr "5"), ("rpcId", JVal.jstr "a"),
        ("method", JVal.jstr "m"), ("args", JVal.jarr [])])
      rfl rfl rfl rfl (by decide)).1⟩

/-- Claim C8 witness: cancelling pending call "1" and then receiving its
reply with result 42. -/
theorem cancel_then_reply_witness :
    (RPCManagerState.mk 1 ["1"] [] false).pendingRPCReplies.contains "1" = true ∧
    (LazyPromiseState.mk LazyPromiseResolution.pending false).resolution =
      LazyPromiseResolution.pending ∧
    (LazyPromiseState.mk LazyPromiseResolution.pending false).cancelRequested = false ∧
    ¬ ("1" : String) = "" ∧
    (outboundCancel "1" (LazyPromiseState.mk LazyPromiseResolution.pending false)).2 =
      [MessageFactory.cancel "1"] ∧
    (outboundCancel "1"
      (outboundCancel "1" (LazyPromiseState.mk LazyPromiseResolution.pending false)).1).2 = [] ∧
    RPCManager.receiveParsed (RPCManagerState.mk 1 ["1"] [] false)
        (JVal.jobj [("seq", JVal.jstr "1"), ("res", JVal.jnum 42)]) =
      ([Effect.deletePending "1", Effect.resolveOk "1" (some (JVal.jnum 42))], none) :=
  ⟨rfl, rfl, rfl, by decide,
    (cancel_then_reply (RPCManagerState.mk 1 ["1"] [] false) "1"
      (LazyPromiseState.mk LazyPromiseResolution.pending false) (JVal.jnum 42)
      rfl rfl rfl (by decide)).1,
    (cancel_then_reply (RPCManagerState.mk 1 ["1"] [] false) "1"
      (LazyPromiseState.mk LazyPromiseResolution.pending false) (JVal.jnum 42)
      rfl rfl rfl (by decide)).2.1,
    (cancel_then_reply (RPCManagerState.mk 1 ["1"] [] false) "1"
      (LazyPromiseState.mk LazyPromiseResolution.pending false) (JVal.jnum 42)
      rfl rfl rfl (by decide)).2.2⟩


/-! ## Correlation-id and multiplexer claims -/

/-- One step of `callSequence`: `callOnRemote` issues the id
`String(lastMessageId + 1)` and registers it as pending. -/
theorem callSequence_unfold (st : RPCManagerState) (p m : String) (a : JVal)
    (rest : List (String × String × JVal)) :
    RPCManager.callSequence st ((p, m, a) :: rest) =
      ((RPCManager.callSequence { st with
          lastMessageId := st.lastMessageId + 1,
          pendingRPCReplies := st.pendingRPCReplies ++ [natToString (st.lastMessageId + 1)] }
        rest).1,
       natToString (st.lastMessageId + 1) ::
        (RPCManager.callSequence { st with
          lastMessageId := st.lastMessageId + 1,
          pendingRPCReplies := st.pendingRPCReplies ++ [natToString (st.lastMessageId + 1)] }
        rest).2) := rfl

/-- The ids issued by N sequential calls are the decimal renderings of
`lastMessageId + 1, ..., lastMessageId + N`, and all of them join the
pending map. -/
theorem callSequence_ids (calls : List (String × String × JVal)) : ∀ st : RPCManagerState,
    (RPCManager.callSequence st calls).2 =
      (List.range calls.length).map (fun i => natToString (st.lastMessageId + 1 + i)) ∧
    (RPCManager.callSequence st calls).1.pendingRPCReplies =
      st.pendingRPCReplies ++ (RPCManager.callSequence st calls).2 := by
  induction calls with
  | nil => intro st; simp [RPCManager.callSequence]
  | cons c rest ih =>
    intro st
    obtain ⟨p, m, a⟩ := c
    obtain ⟨ih1, ih2⟩ := ih { st with
      lastMessageId := st.lastMessageId + 1,
      pendingRPCReplies := st.pendingRPCReplies ++ [natToString (st.lastMessageId + 1)] }
    rw [callSequence_unfold]
    constructor
    · show natToString (st.lastMessageId + 1) :: _ = _
      rw [ih1]
      rw [List.length_cons, List.range_succ_eq_map, List.map_cons, List.map_map]
      congr 1
      · simp
        intro i _
        congr 1
        omega
    · show _ = st.pendingRPCReplies ++ (natToString (st.lastMessageId + 1) :: _)
      rw [ih2]
      simp

/-- Claim C3: N sequential `callOnRemote` invocations on one manager
instance issue the correlation ids `String(lastMessageId + 1)` through
`String(lastMessageId + N)`: the underlying numbers are strictly
increasing in issuance order (hence pairwise distinct), the rendered ids
are pairwise distinct, every issued id becomes pending, and — given that
every currently pending id was rendered from a counter value at most
`lastMessageId` — no issued id collides with a pending one, so an id is
never reused while its call is pending. -/
theorem callOnRemote_ids_strictly_increasing (calls : List (String × String × JVal))
    (st : RPCManagerState)
    (hinv : ∀ s ∈ st.pendingRPCReplies, ∃ k, k ≤ st.lastMessageId ∧ s = natToString k) :
    (RPCManager.callSequence st calls).2 =
      (List.range calls.length).map (fun i => natToString (st.lastMessageId + 1 + i)) ∧
    List.Pairwise (fun x y => x < y)
      ((List.range calls.length).map (fun i => st.lastMessageId + 1 + i)) ∧
    (RPCManager.callSequence st calls).2.Nodup ∧
    (RPCManager.callSequence st calls).1.pendingRPCReplies =
      st.pendingRPCReplies ++ (RPCManager.callSequence st calls).2 ∧
    (∀ s ∈ (RPCManager.callSequence st calls).2, s ∉ st.pendingRPCReplies) := by
  obtain ⟨hids, hpend⟩ := callSequence_ids calls st
  have hmono : List.Pairwise (fun x y => x < y)
      ((List.range calls.length).map (fun i => st.lastMessageId + 1 + i)) := by
    rw [List.pairwise_map]
    exact (List.pairwise_lt_range calls.length).imp (fun h => by omega)
  refine ⟨hids, hmono, ?_, hpend, ?_⟩
  · rw [hids]
    refine List.Nodup.map ?_ (List.nodup_range calls.length)
    intro a b hab
    have := natToString_injective _ _ hab
    omega
  · intro s hs hmem
    rw [hids] at hs
    simp only [List.mem_map, List.mem_range] at hs
    obtain ⟨i, hi, hkey⟩ := hs
    obtain ⟨k, hk, hkey2⟩ := hinv _ hmem
    have : st.lastMessageId + 1 + i = k := natToString_injective _ _ (by rw [hkey, ← hkey2])
    omega

/-- `RPCMultiplexer.send` on an empty buffer schedules the flush and
starts the batch. -/
theorem mux_send_step_empty (s : RPCMultiplexerSendState) (m : String)
    (h : s.messagesToSend = []) :
    RPCMultiplexer.send s m =
      { s with messagesToSend := [m], scheduledFlushes := s.scheduledFlushes + 1 } := by
  simp [RPCMultiplexer.send, h]

/-- Subsequent `send` calls in the same tick append to the batch and
schedule nothing further. -/
theorem mux_send_foldl_nonempty (msgs : List String) : ∀ s : RPCMultiplexerSendState,
    s.messagesToSend ≠ [] →
    msgs.foldl RPCMultiplexer.send s = { s with messagesToSend := s.messagesToSend ++ msgs } := by
  induction msgs with
  | nil => intro s h; simp
  | cons m ms ih =>
    intro s h
    have hlen : ¬ s.messagesToSend.length = 0 := by
      simpa [List.length_eq_zero] using h
    have hstep : RPCMultiplexer.send s m =
        { s with messagesToSend := s.messagesToSend ++ [m] } := by
      simp [RPCMultiplexer.send, hlen]
    rw [List.foldl_cons, hstep, ih _ (by simp)]
    simp

/-- Claim C4: K ≥ 1 `RPCMultiplexer.send` calls issued within one
synchronous step, starting from an empty buffer, schedule exactly one
flush, hand nothing to the transport while accumulating, and the single
scheduled `_sendAccumulated` run then performs exactly one transport
`send` whose batch is exactly those K messages in call order, leaving the
buffer empty. -/
theorem multiplexer_batches_sends (s0 : RPCMultiplexerSendState) (msgs : List String)
    (hempty : s0.messagesToSend = []) (hne : msgs ≠ []) :
    (msgs.foldl RPCMultiplexer.send s0).scheduledFlushes = s0.scheduledFlushes + 1 ∧
    (msgs.foldl RPCMultiplexer.send s0).messagesToSend = msgs ∧
    (msgs.foldl RPCMultiplexer.send s0).transportSends = s0.transportSends ∧
    (RPCMultiplexer.sendAccumulated (msgs.foldl RPCMultiplexer.send s0)).transportSends =
      s0.transportSends ++ [msgs] ∧
    (RPCMultiplexer.sendAccumulated (msgs.foldl RPCMultiplexer.send s0)).messagesToSend = [] ∧
    (RPCMultiplexer.sendAccumulated (msgs.foldl RPCMultiplexer.send s0)).scheduledFlushes =
      s0.scheduledFlushes := by
  obtain ⟨m, ms, rfl⟩ := List.exists_cons_of_ne_nil hne
  rw [List.foldl_cons, mux_send_step_empty s0 m hempty,
    mux_send_foldl_nonempty ms _ (by simp)]
  simp [RPCMultiplexer.sendAccumulated]

/-- Draining the receive queue: with the scheduling invariant (a tick
pending iff the queue is non-empty), k ticks deliver exactly the first k
queued messages in order, one per tick. -/
theorem mux_drain (k : Nat) : ∀ (q : List String) (s : RPCMultiplexerRecvState),
    s.messagesToReceive = q →
    s.scheduledReceives = (if q = [] then 0 else 1) →
    k ≤ q.length →
    (RPCMultiplexer.receiveOneMessage^[k] s).delivered = s.delivered ++ q.take k ∧
    (RPCMultiplexer.receiveOneMessage^[k] s).messagesToReceive = q.drop k ∧
    (RPCMultiplexer.receiveOneMessage^[k] s).scheduledReceives =
      (if q.drop k = [] then 0 else 1) := by
  induction k with
  | zero =>
    intro q s hq hs _
    simp [hq, hs]
  | succ k ih =>
    intro q s hq hs hk
    obtain ⟨m, q', rfl⟩ : ∃ m q', q = m :: q' := by
      cases q with
      | nil => simp at hk
      | cons m q' => exact ⟨m, q', rfl⟩
    have hstep : RPCMultiplexer.receiveOneMessage s =
        { messagesToReceive := q', scheduledReceives := (if q' = [] then 0 else 1),
          delivered := s.delivered ++ [m] } := by
      unfold RPCMultiplexer.receiveOneMessage
      rw [hq, hs]
      cases q' with
      | nil => simp
      | cons x xs => simp
    rw [Function.iterate_succ_apply, hstep]
    obtain ⟨d1, d2, d3⟩ := ih q'
      { messagesToReceive := q', scheduledReceives := (if q' = [] then 0 else 1),
        delivered := s.delivered ++ [m] } rfl rfl (by simpa using hk)
    refine ⟨?_, ?_, ?_⟩
    · rw [d1]
      simp
    · rw [d2]
      rfl
    · rw [d3]
      rfl

/-- Claim C5: an inbound batch of M messages arriving at an idle
multiplexer schedules delivery; each cooperative tick then delivers
exactly one message, in arrival order (after k ticks exactly the first k
messages have been dispatched), and after M ticks the queue is empty and
nothing further is scheduled; a second batch arriving meanwhile
concatenates behind the first and the combined queue drains in strict
FIFO order, one message per tick. -/
theorem multiplexer_receive_ordering (s0 : RPCMultiplexerRecvState) (batch batch2 : List String)
    (hq : s0.messagesToReceive = []) (hs : s0.scheduledReceives = 0)
    (hne : batch ≠ []) (_hne2 : batch2 ≠ []) :
    (RPCMultiplexer.onProtocolMessage s0 batch).messagesToReceive = batch ∧
    (RPCMultiplexer.onProtocolMessage s0 batch).scheduledReceives = 1 ∧
    (RPCMultiplexer.onProtocolMessage s0 batch).delivered = s0.delivered ∧
    (∀ k, k ≤ batch.length →
      (RPCMultiplexer.receiveOneMessage^[k] (RPCMultiplexer.onProtocolMessage s0 batch)).delivered =
        s0.delivered ++ batch.take k) ∧
    (RPCMultiplexer.receiveOneMessage^[batch.length]
      (RPCMultiplexer.onProtocolMessage s0 batch)).messagesToReceive = [] ∧
    (RPCMultiplexer.receiveOneMessage^[batch.length]
      (RPCMultiplexer.onProtocolMessage s0 batch)).scheduledReceives = 0 ∧
    (RPCMultiplexer.onProtocolMessage (RPCMultiplexer.onProtocolMessage s0 batch)
        batch2).messagesToReceive = batch ++ batch2 ∧
    (RPCMultiplexer.onProtocolMessage (RPCMultiplexer.onProtocolMessage s0 batch)
        batch2).scheduledReceives = 1 ∧
    (∀ k, k ≤ (batch ++ batch2).length →
      (RPCMultiplexer.receiveOneMessage^[k]
        (RPCMultiplexer.onProtocolMessage (RPCMultiplexer.onProtocolMessage s0 batch)
          batch2)).delivered = s0.delivered ++ (batch ++ batch2).take k) := by
  have h1 : RPCMultiplexer.onProtocolMessage s0 batch =
      { messagesToReceive := batch, scheduledReceives := 1, delivered := s0.delivered } := by
    simp [RPCMultiplexer.onProtocolMessage, hq, hs]
  have hblen : ¬ batch.length = 0 := by simpa [List.length_eq_zero] using hne
  have h2 : RPCMultiplexer.onProtocolMessage (RPCMultiplexer.onProtocolMessage s0 batch) batch2 =
      { messagesToReceive := batch ++ batch2, scheduledReceives := 1,
        delivered := s0.delivered } := by
    rw [h1]
    simp [RPCMultiplexer.onProtocolMessage, hblen]
  have hbne : (if batch = [] then (0 : Nat) else 1) = 1 := by simp [hne]
  have hbbne : (if batch ++ batch2 = [] then (0 : Nat) else 1) = 1 := by simp [hne]
  refine ⟨by rw [h1], by rw [h1], by rw [h1], ?_, ?_, ?_, by rw [h2], by rw [h2], ?_⟩
  · intro k hk
    have := (mux_drain k batch
      { messagesToReceive := batch, scheduledReceives := 1, delivered := s0.delivered }
      rfl (by rw [hbne]) hk).1
    rw [h1, this]
  · have := (mux_drain batch.length batch
      { messagesToReceive := batch, scheduledReceives := 1, delivered := s0.delivered }
      rfl (by rw [hbne]) (le_refl _)).2.1
    rw [h1, this]
    simp
  · have := (mux_drain batch.length batch
      { messagesToReceive := batch, scheduledReceives := 1, delivered := s0.delivered }
      rfl (by rw [hbne]) (le_refl _)).2.2
    rw [h1, this]
    simp
  · intro k hk
    have := (mux_drain k (batch ++ batch2)
      { messagesToReceive := batch ++ batch2, scheduledReceives := 1,
        delivered := s0.delivered } rfl (by rw [hbbne]) hk).1
    rw [h2, this]

/-- Claim C3 witness: two calls on a fresh manager issue ids "1" and "2". -/
theorem callOnRemote_ids_strictly_increasing_witness :
    (∀ s ∈ initialRPCManagerState.pendingRPCReplies,
      ∃ k, k ≤ initialRPCManagerState.lastMessageId ∧ s = natToString k) ∧
    ((RPCManager.callSequence initialRPCManagerState
        [("svc.a", "m", JVal.jarr []), ("svc.b", "n", JVal.jarr [])]).2 =
      (List.range ([("svc.a", "m", JVal.jarr []),
        ("svc.b", "n", JVal.jarr [])] : List (String × String × JVal)).length).map
        (fun i => natToString (initialRPCManagerState.lastMessageId + 1 + i)) ∧
    List.Pairwise (fun x y => x < y)
      ((List.range ([("svc.a", "m", JVal.jarr []),
        ("svc.b", "n", JVal.jarr [])] : List (String × String × JVal)).length).map
        (fun i => initialRPCManagerState.lastMessageId + 1 + i)) ∧
    (RPCManager.callSequence initialRPCManagerState
      [("svc.a", "m", JVal.jarr []), ("svc.b", "n", JVal.jarr [])]).2.Nodup ∧
    (RPCManager.callSequence initialRPCManagerState
      [("svc.a", "m", JVal.jarr []), ("svc.b", "n", JVal.jarr [])]).1.pendingRPCReplies =
      initialRPCManagerState.pendingRPCReplies ++
        (RPCManager.callSequence initialRPCManagerState
          [("svc.a", "m", JVal.jarr []), ("svc.b", "n", JVal.jarr [])]).2 ∧
    (∀ s ∈ (RPCManager.callSequence initialRPCManagerState
        [("svc.a", "m", JVal.jarr []), ("svc.b", "n", JVal.jarr [])]).2,
      s ∉ initialRPCManagerState.pendingRPCReplies)) :=
  ⟨by simp [initialRPCManagerState],
    callOnRemote_ids_strictly_increasing
      [("svc.a", "m", JVal.jarr []), ("svc.b", "n", JVal.jarr [])]
      initialRPCManagerState (by simp [initialRPCManagerState])⟩

/-- Claim C4 witness: two sends accumulate into one transport batch. -/
theorem multiplexer_batches_sends_witness :
    (RPCMultiplexerSendState.mk [] 0 []).messagesToSend = [] ∧
    (["a", "b"] : List String) ≠ [] ∧
    ((["a", "b"].foldl RPCMultiplexer.send (RPCMultiplexerSendState.mk [] 0 [])).scheduledFlushes =
      (RPCMultiplexerSendState.mk [] 0 []).scheduledFlushes + 1 ∧
    (["a", "b"].foldl RPCMultiplexer.send (RPCMultiplexerSendState.mk [] 0 [])).messagesToSend =
      ["a", "b"] ∧
    (["a", "b"].foldl RPCMultiplexer.send (RPCMultiplexerSendState.mk [] 0 [])).transportSends =
      (RPCMultiplexerSendState.mk [] 0 []).transportSends ∧
    (RPCMultiplexer.sendAccumulated
      (["a", "b"].foldl RPCMultiplexer.send (RPCMultiplexerSendState.mk [] 0 []))).transportSends =
      (RPCMultiplexerSendState.mk [] 0 []).transportSends ++ [["a", "b"]] ∧
    (RPCMultiplexer.sendAccumulated
      (["a", "b"].foldl RPCMultiplexer.send (RPCMultiplexerSendState.mk [] 0 []))).messagesToSend =
      [] ∧
    (RPCMultiplexer.sendAccumulated
      (["a", "b"].foldl RPCMultiplexer.send (RPCMultiplexerSendState.mk [] 0 []))).scheduledFlushes =
      (RPCMultiplexerSendState.mk [] 0 []).scheduledFlushes) :=
  ⟨rfl, by simp,
    multiplexer_batches_sends (RPCMultiplexerSendState.mk [] 0 []) ["a", "b"] rfl (by simp)⟩

/-- Claim C5 witness: a batch of two messages followed by a batch of one. -/
theorem multiplexer_receive_ordering_witness :
    (RPCMultiplexerRecvState.mk [] 0 []).messagesToReceive = [] ∧
    (RPCMultiplexerRecvState.mk [] 0 []).scheduledReceives = 0 ∧
    (["x", "y"] : List String) ≠ [] ∧ (["z"] : List String) ≠ [] ∧
    ((RPCMultiplexer.onProtocolMessage (RPCMultiplexerRecvState.mk [] 0 [])
        ["x", "y"]).messagesToReceive = ["x", "y"] ∧
    (RPCMultiplexer.onProtocolMessage (RPCMultiplexerRecvState.mk [] 0 [])
        ["x", "y"]).scheduledReceives = 1 ∧
    (RPCMultiplexer.onProtocolMessage (RPCMultiplexerRecvState.mk [] 0 [])
        ["x", "y"]).delivered = (RPCMultiplexerRecvState.mk [] 0 []).delivered ∧
    (∀ k, k ≤ (["x", "y"] : List String).length →
      (RPCMultiplexer.receiveOneMessage^[k] (RPCMultiplexer.onProtocolMessage
        (RPCMultiplexerRecvState.mk [] 0 []) ["x", "y"])).delivered =
        (RPCMultiplexerRecvState.mk [] 0 []).delivered ++ (["x", "y"] : List String).take k) ∧
    (RPCMultiplexer.receiveOneMessage^[(["x", "y"] : List String).length]
      (RPCMultiplexer.onProtocolMessage (RPCMultiplexerRecvState.mk [] 0 [])
        ["x", "y"])).messagesToReceive = [] ∧
    (RPCMultiplexer.receiveOneMessage^[(["x", "y"] : List String).length]
      (RPCMultiplexer.onProtocolMessage (RPCMultiplexerRecvState.mk [] 0 [])
        ["x", "y"])).scheduledReceives = 0 ∧
    (RPCMultiplexer.onProtocolMessage (RPCMultiplexer.onProtocolMessage
      (RPCMultiplexerRecvState.mk [] 0 []) ["x", "y"]) ["z"]).messagesToReceive =
      ["x", "y"] ++ ["z"] ∧
    (RPCMultiplexer.onProtocolMessage (RPCMultiplexer.onProtocolMessage
      (RPCMultiplexerRecvState.mk [] 0 []) ["x", "y"]) ["z"]).scheduledReceives = 1 ∧
    (∀ k, k ≤ ((["x", "y"] : List String) ++ ["z"]).length →
      (RPCMultiplexer.receiveOneMessage^[k] (RPCMultiplexer.onProtocolMessage
        (RPCMultiplexer.onProtocolMessage (RPCMultiplexerRecvState.mk [] 0 []) ["x", "y"])
        ["z"])).delivered =
        (RPCMultiplexerRecvState.mk [] 0 []).delivered ++
          ((["x", "y"] : List String) ++ ["z"]).take k)) :=
  ⟨rfl, rfl, by simp, by simp,
    multiplexer_receive_ordering (RPCMultiplexerRecvState.mk [] 0 []) ["x", "y"] ["z"]
      rfl rfl (by simp) (by simp)⟩


end IpcRemoteCom
